import Mathlib

/-!
A shallow embedding of `src/src/Giraffe.py` (Giraffe for Rhino): a registry
core that deduplicates geometric entities, assigns numbers within groups,
resolves numbering conflicts and produces SOFiSTiK export text.

Modelling conventions:
* Python floats are idealised as exact rationals (`ℚ`); `round(x, 5)` becomes
  exact rounding of the rational to 5 decimal digits.
* Python object identity (used by `==` on `Node`, `GiraffeLayer` — neither
  class defines `__eq__`) is modelled by a `pyId : Nat` token carried by the
  value.
* External Rhino calls (`rs.*`) and the external label decoder
  (`rhinoinput.RhinoInput`) are modelled as data supplied with the input:
  a `RawObject` carries its object type, its already-decoded label triple and
  its geometry; a decoder `String → RhinoTriple` is passed where layer-name
  strings are decoded.
* Python exceptions (`TypeError` from a non-`None` `__init__` return,
  `KeyError` from a failed `dict` lookup) are modelled with `Except` /
  `Option`.
* Python's attribute mutation (`element.no = ...`) is modelled by returning
  updated values and, for mutation of an element stored inside a registry,
  by replacing it at its position in the registry's list.
-/

namespace Giraffe

/-- Python exceptions that the translated code can raise. -/
inductive PyError where
  | typeError : PyError
  | keyError : PyError
deriving DecidableEq

/-- Python constructor-call semantics: `C(args)` runs `__init__`, which must
return `None`; any other return value raises
`TypeError: __init__() should return None, not ...`.  The pair holds the
state `__init__` built in `self` and the value `__init__` returned. -/
def pyNew {σ : Type} (r : σ × Option σ) : Except PyError σ :=
  match r.2 with
  | none => Except.ok r.1
  | some _ => Except.error PyError.typeError

/-- Decoded label triple produced by the external `rhinoinput.RhinoInput`
parser: `{number, name, property}`; a missing number is the sentinel `-1`. -/
structure RhinoTriple where
  no : Int
  name : String
  prop : String
deriving DecidableEq

/-- A 3D point with exact-rational coordinates (idealised Python floats). -/
structure Vec3 where
  x : ℚ
  y : ℚ
  z : ℚ
deriving DecidableEq

/-- One raw geometric record from the external geometry provider: the Rhino
object type tag (1 = point, 4 = curve), the already-decoded label of the
object's name, and its geometry (`point` for points, `curveStart`/`curveEnd`
for curves). -/
structure RawObject where
  objType : Int
  label : RhinoTriple
  point : Vec3
  curveStart : Vec3
  curveEnd : Vec3
deriving DecidableEq

/-- Source: the module-level `plural_to_sofi` dict, as an association list. -/
def plural_to_sofi : List (String × String) :=
  [("nodes", "node"), ("beams", "beam"), ("trusses", "trus"),
   ("cables", "cabl"), ("springs", "spri"), ("quads", "quad")]

/-- Python `plural_to_sofi[key]`: `none` models a raised `KeyError`. -/
def lookupSofi (key : String) : Option String :=
  (plural_to_sofi.find? (fun p => p.1 = key)).map (fun p => p.2)

/-- Source: the module-level `line_elements` list. -/
def line_elements : List String := ["beams", "trusses", "cables"]

/-- Source: `tolerance = 0.1`, how close points have to be to be
considered one. -/
def tolerance : ℚ := 1 / 10

/-- Python `round(q, 5)`, idealised to exact rounding of a rational to five
decimal digits. -/
def round5 (q : ℚ) : ℚ := (round (q * 100000) : ℤ) / 100000

/-- `GiraffeLayer`: the state built by `GiraffeLayer.__init__` from the layer
name, together with a `pyId` identity token and the geometry the external
provider yields for this layer (`get_geometry`). -/
structure GiraffeLayer where
  pyId : Nat
  name : String
  path : List String
  depth : Nat
  last : String
  geometry : List RawObject
deriving DecidableEq

/-- Python's `name.split("::")` on the character list, split at each
non-overlapping `::` from the left.  Implemented by structural recursion
(rather than `String.splitOn`, whose well-founded recursion the kernel
cannot evaluate); the semantics is the same. -/
def splitPathAux : List Char → List Char → List (List Char)
  | acc, [] => [acc.reverse]
  | acc, ':' :: ':' :: rest => acc.reverse :: splitPathAux [] rest
  | acc, c :: rest => splitPathAux (c :: acc) rest

/-- Python's `name.split("::")`. -/
def pySplitPath (s : String) : List String :=
  (splitPathAux [] s.data).map (fun cs => String.mk cs)

/-- The field assignments performed by `GiraffeLayer.__init__`. -/
def mkGiraffeLayer (pyId : Nat) (name : String) (geometry : List RawObject) :
    GiraffeLayer :=
  let path := pySplitPath name
  let depth := path.length
  { pyId := pyId, name := name, path := path, depth := depth,
    last := path.getD (depth - 1) "", geometry := geometry }

/-- `GiraffeLayer.__init__` builds the state and then executes `return self`
(the source's final line), so the returned value is `some` of the state. -/
def GiraffeLayer.initBody (pyId : Nat) (name : String)
    (geometry : List RawObject) : GiraffeLayer × Option GiraffeLayer :=
  let s := mkGiraffeLayer pyId name geometry
  (s, some s)

/-- A Python-level constructor call `GiraffeLayer(name)`. -/
def GiraffeLayer.new (pyId : Nat) (name : String)
    (geometry : List RawObject) : Except PyError GiraffeLayer :=
  pyNew (GiraffeLayer.initBody pyId name geometry)

/-- `GiraffeLayer.get_grp`, with the external label decoder passed in. -/
def GiraffeLayer.get_grp (dec : String → RhinoTriple) (l : GiraffeLayer) :
    Int :=
  if l.depth > 2 then (dec (l.path.getD 2 "")).no else -1

/-- `GiraffeLayer.get_name`. -/
def GiraffeLayer.get_name (dec : String → RhinoTriple) (l : GiraffeLayer) :
    String :=
  (dec l.last).name

/-- `GiraffeLayer.get_prop`. -/
def GiraffeLayer.get_prop (dec : String → RhinoTriple) (l : GiraffeLayer) :
    String :=
  if l.depth = 2 then "" else (dec l.last).prop

/-- `GiraffeLayer.get_type`: a `plural_to_sofi` dict lookup that can raise
`KeyError` (modelled by `none`). -/
def GiraffeLayer.get_type (l : GiraffeLayer) : Option String :=
  lookupSofi (l.path.getD 1 "")

/-- `GiraffeLayer.export`: the `!*!Label` marker block. `none` models the
`KeyError` that `get_type` can raise. -/
def GiraffeLayer.exportStr (dec : String → RhinoTriple) (l : GiraffeLayer) :
    Option String :=
  match l.get_type with
  | none => none
  | some typ =>
    let grp := l.get_grp dec
    let prop := l.get_prop dec
    let grp_string := if grp ≠ -1 then "grp " ++ toString grp else ""
    let output := "\n\n!*!Label " ++ l.path.getD 1 "" ++ " .. " ++ grp_string
      ++ " .. " ++ l.get_name dec ++ "\n"
    let output := if grp_string ≠ "" then output ++ grp_string ++ "\n"
      else output
    let output := if prop ≠ "" then output ++ typ ++ " prop " ++ prop ++ "\n"
      else output
    some output

/-- A `Node` object: the `StructuralElement` base fields set by
`StructuralElement.__init__`/`build_base` plus the coordinates set by
`Node.build`, and a `pyId` identity token (Python object identity). -/
structure NodeE where
  pyId : Nat
  typ : String
  grp : Int
  no : Int
  prop : String
  name : String
  strict_naming : Bool
  layer : Option GiraffeLayer
  x : ℚ
  y : ℚ
  z : ℚ
deriving DecidableEq

/-- `Node(obj)` for an existing Rhino point object: `StructuralElement`
defaults, then `build_base` reads the decoded label (`strict_naming` is set
exactly when the label carries a number), then `Node.build` rounds the
point's coordinates to 5 decimals.  `grp` keeps the constructor default
`-1` — `Node.__init__` never passes a group. -/
def mkNodeFromObj (pyId : Nat) (label : RhinoTriple) (pt : Vec3) : NodeE :=
  { pyId := pyId, typ := "node", grp := -1,
    no := label.no,
    prop := label.prop,
    name := label.name,
    strict_naming := decide (label.no ≠ -1),
    layer := none,
    x := round5 pt.x, y := round5 pt.y, z := round5 pt.z }

/-- `Node(None, coordinates)` for an anonymous line endpoint: `self.geo` is
`None`, so `build_base` leaves the defaults `no = -1`, empty name/prop,
`strict_naming = False`; `Node.build` rounds the given coordinates. -/
def mkNodeFromCoords (pyId : Nat) (pt : Vec3) : NodeE :=
  { pyId := pyId, typ := "node", grp := -1,
    no := -1, prop := "", name := "", strict_naming := false,
    layer := none,
    x := round5 pt.x, y := round5 pt.y, z := round5 pt.z }

/-- `Node.distance_to` squared.  The source computes
`((dx)**2 + (dy)**2 + (dz)**2) ** 0.5`; we keep the radicand exact and
compare squares (see `NodeE.identical_to` and the bridging lemma relating
this to the real square root). -/
def NodeE.distSqTo (a b : NodeE) : ℚ :=
  (a.x - b.x) ^ 2 + (a.y - b.y) ^ 2 + (a.z - b.z) ^ 2

/-- `Node.identical_to`: `distance_to(n) < tolerance`, stated equivalently on
squares (both sides are nonnegative, squaring is strictly monotone). -/
def NodeE.identical_to (a b : NodeE) : Bool :=
  decide (a.distSqTo b < tolerance ^ 2)

/-- `StructuralElement.export_base`. -/
def NodeE.export_base (n : NodeE) : String :=
  n.typ ++ " no " ++ toString n.no

/-- `Node.export_coordinates`. -/
def NodeE.export_coordinates (n : NodeE) : String :=
  "x " ++ toString n.x ++ "*#conversion_factor" ++ " y " ++ toString n.y
    ++ "*#conversion_factor" ++ " z " ++ toString n.z
    ++ "*#conversion_factor"

/-- `Node.export`. -/
def NodeE.exportLine (n : NodeE) : String :=
  let output := n.export_base ++ " " ++ n.export_coordinates ++ " " ++ n.prop
  if n.name ≠ "" then output ++ "$ " ++ n.name else output

/-- A `LineElement` object: `StructuralElement` base fields plus references
to the two endpoint `Node` objects, modelled by their `pyId` identity tokens
(`None` until assigned, as in `LineElement.__init__`). -/
structure LineE where
  typ : String
  grp : Int
  no : Int
  prop : String
  name : String
  strict_naming : Bool
  layer : Option GiraffeLayer
  n1 : Option Nat
  n2 : Option Nat
deriving DecidableEq

/-- `LineElement(obj, typ)`: base fields from the decoded label,
`n1 = n2 = None`.  `grp` keeps the constructor default `-1`. -/
def mkLineFromObj (typ : String) (label : RhinoTriple) : LineE :=
  { typ := typ, grp := -1,
    no := label.no,
    prop := label.prop,
    name := label.name,
    strict_naming := decide (label.no ≠ -1),
    layer := none, n1 := none, n2 := none }

/-- `LineElement.identical_to`: `self.n1 == elem.n1 and self.n2 == elem.n2`,
Python `==` on `Node` objects being object identity (no `__eq__` on `Node`).
-/
def LineE.identical_to (a b : LineE) : Bool :=
  decide (a.n1 = b.n1 ∧ a.n2 = b.n2)

/-- `LineElement.export`, with `env` giving the current `no` of the node
object a `pyId` refers to (Python reads `self.n1.no` through the reference,
so it sees renumberings applied to the stored node after the line was
built). -/
def LineE.exportLine (env : Nat → Int) (e : LineE) : String :=
  let output := e.typ ++ " no " ++ toString e.no ++ " na "
    ++ toString (match e.n1 with | some i => env i | none => -1) ++ " ne "
    ++ toString (match e.n2 with | some i => env i | none => -1) ++ " "
    ++ e.prop
  if e.name ≠ "" then output ++ "$ " ++ e.name else output

/-- The operations `ElementList` needs from its element kind: field access
and update for the numbering fields, the kind's equality predicate and the
provenance marker.  Instantiated by `nodeIntf` and `lineIntf` below. -/
structure ElemIntf (α : Type) where
  no : α → Int
  grp : α → Int
  strict : α → Bool
  setNo : α → Int → α
  identTo : α → α → Bool
  layerOf : α → Option GiraffeLayer

/-- The `ElemIntf` instance for `Node` elements. -/
def nodeIntf : ElemIntf NodeE :=
  { no := fun n => n.no, grp := fun n => n.grp,
    strict := fun n => n.strict_naming,
    setNo := fun n k => { n with no := k },
    identTo := NodeE.identical_to,
    layerOf := fun n => n.layer }

/-- The `ElemIntf` instance for `LineElement` elements. -/
def lineIntf : ElemIntf LineE :=
  { no := fun e => e.no, grp := fun e => e.grp,
    strict := fun e => e.strict_naming,
    setNo := fun e k => { e with no := k },
    identTo := LineE.identical_to,
    layerOf := fun e => e.layer }

/-- The structural facts about an `ElemIntf` that the registry proofs use:
`setNo` writes exactly the `no` field (leaving `grp` and the equality
predicate unchanged, on either side), and the equality predicate is
symmetric.  Both concrete instances satisfy them (`goodNode`, `goodLine`). -/
def GoodIntf {α : Type} (I : ElemIntf α) : Prop :=
  (∀ a b, I.identTo a b = I.identTo b a) ∧
  (∀ a n, I.no (I.setNo a n) = n) ∧
  (∀ a n, I.grp (I.setNo a n) = I.grp a) ∧
  (∀ a b n, I.identTo (I.setNo a n) b = I.identTo a b) ∧
  (∀ a b n, I.identTo a (I.setNo b n) = I.identTo a b)

/-- `ElementList`: the registry state — name, insertion-ordered element
list, accumulated diagnostic messages. -/
structure EList (α : Type) where
  name : String
  _list : List α
  _errors : List String
deriving DecidableEq

/-- `ElementList.__init__`. -/
def mkEList (α : Type) (name : String) : EList α :=
  { name := name, _list := [], _errors := [] }

/-- `ElementList.get_identical_to`: first element of the list that the new
element is `identical_to`; `None` if none. -/
def get_identical_to {α : Type} (I : ElemIntf α) (st : EList α) (e : α) :
    Option α :=
  st._list.find? (fun item => I.identTo e item)

/-- `ElementList.is_taken_number`. -/
def is_taken_number {α : Type} (I : ElemIntf α) (st : EList α)
    (number grp : Int) : Bool :=
  st._list.any (fun el => decide (I.no el = number ∧ I.grp el = grp))

/-- The body of `ElementList.get_available_number`'s `while` loop, with
explicit fuel.  `get_available_number` supplies fuel `length + 1`, which is
always enough: the loop visits at most one taken number per list element
(see `availAux_spec`). -/
def availAux {α : Type} (I : ElemIntf α) (st : EList α) (grp : Int) :
    Nat → Int → Int
  | 0, n => n
  | Nat.succ fuel, n =>
    if is_taken_number I st n grp then availAux I st grp fuel (n + 1) else n

/-- `ElementList.get_available_number`: lowest number not taken in the
group, scanning up from 1. -/
def get_available_number {α : Type} (I : ElemIntf α) (st : EList α)
    (grp : Int) : Int :=
  availAux I st grp (st._list.length + 1) 1

/-- `ElementList.get_conflicting_element`: first element with the new
element's `(no, grp)`. -/
def get_conflicting_element {α : Type} (I : ElemIntf α) (st : EList α)
    (e : α) : Option α :=
  st._list.find? (fun el => decide (I.no el = I.no e ∧ I.grp el = I.grp e))

/-- `ElementList.add_number`: `element.no = get_available_number(element.grp)`
as a functional update. -/
def add_number {α : Type} (I : ElemIntf α) (st : EList α) (e : α) : α :=
  I.setNo e (get_available_number I st (I.grp e))

/-- Replace the first element satisfying `p` (Python mutates the object
`get_conflicting_element` returned, which sits at that position). -/
def replaceFirst {α : Type} (p : α → Bool) (v : α) : List α → List α
  | [] => []
  | a :: t => if p a then v :: t else a :: replaceFirst p v t

/-- `ElementList.resolve_numbering_conflict`.  Rule 1 (existing element not
strictly named): the existing element is renumbered in place, silently.
Rule 2 (existing element strictly named): the new element is renumbered and
a warning is appended — the message is built after the renumbering, so it
shows the existing element's (kept) number and the new element's fresh one.
Returns the updated registry and the (possibly renumbered) new element. -/
def resolve_numbering_conflict {α : Type} (I : ElemIntf α) (st : EList α)
    (existing newE : α) : EList α × α :=
  if ¬ I.strict existing then
    let renum := add_number I st existing
    let newList := replaceFirst
      (fun el => decide (I.no el = I.no newE ∧ I.grp el = I.grp newE))
      renum st._list
    ({ st with _list := newList }, newE)
  else
    let newE' := add_number I st newE
    let msg := "Numbering conflict, node number " ++ toString (I.no existing)
      ++ " changed to " ++ toString (I.no newE') ++ "."
    ({ st with _errors := st._errors ++ [msg] }, newE')

/-- `ElementList.add`: dedup against the list, then number assignment or
conflict resolution, then append; returns the authoritative element. -/
def addE {α : Type} (I : ElemIntf α) (st : EList α) (newE : α) :
    EList α × α :=
  match get_identical_to I st newE with
  | some identical => (st, identical)
  | none =>
    if I.no newE = -1 then
      let e := add_number I st newE
      ({ st with _list := st._list ++ [e] }, e)
    else
      match get_conflicting_element I st newE with
      | some conflict =>
        let r := resolve_numbering_conflict I st conflict newE
        ({ r.1 with _list := r.1._list ++ [r.2] }, r.2)
      | none => ({ st with _list := st._list ++ [newE] }, newE)

/-- A sequence of `add` calls, collecting the returned elements. -/
def addRun {α : Type} (I : ElemIntf α) (st : EList α) :
    List α → EList α × List α
  | [] => (st, [])
  | e :: es =>
    let p := addE I st e
    let q := addRun I p.1 es
    (q.1, p.2 :: q.2)

/-- The values the `current_layer` loop variable of `ElementList.export`
takes: the initial integer `-1`, a `None` element layer, or a layer object.
-/
inductive LayerSlot where
  | sentinel : LayerSlot
  | noneL : LayerSlot
  | layerL : GiraffeLayer → LayerSlot

/-- Python truthiness of a `current_layer` value: `-1` and layer objects are
truthy, `None` is falsy. -/
def LayerSlot.truthy : LayerSlot → Bool
  | LayerSlot.sentinel => true
  | LayerSlot.noneL => false
  | LayerSlot.layerL _ => true

/-- Python `==` between `current_layer` values: `GiraffeLayer` defines no
`__eq__`, so layer objects compare by identity (`pyId`); values of different
runtime types compare unequal. -/
def LayerSlot.pyEq : LayerSlot → LayerSlot → Bool
  | LayerSlot.sentinel, LayerSlot.sentinel => true
  | LayerSlot.noneL, LayerSlot.noneL => true
  | LayerSlot.layerL a, LayerSlot.layerL b => decide (a.pyId = b.pyId)
  | _, _ => false

/-- The `current_layer` value for an element's `layer` attribute. -/
def slotOf (l : Option GiraffeLayer) : LayerSlot :=
  match l with
  | none => LayerSlot.noneL
  | some gl => LayerSlot.layerL gl

/-- The element loop of `ElementList.export`, threading the `current_layer`
variable: emit the layer's marker block when the element's layer is truthy
and `==`-differs from the previous value, then the element's export line.
`none` models a `KeyError` raised while exporting a marker block. -/
def exportLoop {α : Type} (I : ElemIntf α) (exLine : α → String)
    (dec : String → RhinoTriple) (prev : LayerSlot) :
    List α → Option String
  | [] => some ""
  | item :: rest =>
    let cur := slotOf (I.layerOf item)
    let marker : Option String :=
      if cur.truthy ∧ ¬ (prev.pyEq cur) then
        match I.layerOf item with
        | some gl => gl.exportStr dec
        | none => some ""
      else some ""
    match marker with
    | none => none
    | some mk =>
      match exportLoop I exLine dec cur rest with
      | none => none
      | some tail => some (mk ++ exLine item ++ "\n" ++ tail)

/-- `ElementList.export`: accumulated errors first, each on a commented
line, then the element loop, then a final newline. -/
def exportEList {α : Type} (I : ElemIntf α) (exLine : α → String)
    (dec : String → RhinoTriple) (st : EList α) : Option String :=
  let errPart := String.join
    (st._errors.map (fun item => "$ " ++ item ++ "\n"))
  match exportLoop I exLine dec LayerSlot.sentinel st._list with
  | none => none
  | some body => some (errPart ++ body ++ "\n")

/-- Modelled from the claim's words, for comparison with `exportEList`: a
provenance-marker block is emitted exactly when the entity has a marker and
that marker differs, compared by identity, from the immediately preceding
entity's marker (`prev = none` means there is no preceding entity). -/
def specMarker (dec : String → RhinoTriple)
    (prev : Option (Option GiraffeLayer)) (cur : Option GiraffeLayer) :
    Option String :=
  match cur with
  | none => some ""
  | some l =>
    let differs : Bool :=
      match prev with
      | none => true
      | some none => true
      | some (some p) => decide (p.pyId ≠ l.pyId)
    if differs then l.exportStr dec else some ""

/-- Modelled from the claim's words: one line per entity in insertion order,
each preceded by its marker block exactly under the `specMarker` condition.
-/
def specExportLoop {α : Type} (I : ElemIntf α) (exLine : α → String)
    (dec : String → RhinoTriple) (prev : Option (Option GiraffeLayer)) :
    List α → Option String
  | [] => some ""
  | item :: rest =>
    match specMarker dec prev (I.layerOf item) with
    | none => none
    | some mk =>
      match specExportLoop I exLine dec (some (I.layerOf item)) rest with
      | none => none
      | some tail => some (mk ++ exLine item ++ "\n" ++ tail)

/-- Modelled from the claim's words: warnings first, each on its own
commented line, then the per-entity lines with markers. -/
def specExportEList {α : Type} (I : ElemIntf α) (exLine : α → String)
    (dec : String → RhinoTriple) (st : EList α) : Option String :=
  let errPart := String.join
    (st._errors.map (fun item => "$ " ++ item ++ "\n"))
  match specExportLoop I exLine dec none st._list with
  | none => none
  | some body => some (errPart ++ body ++ "\n")

/-- The `StructuralModel` state as built by `StructuralModel.__init__` (via
`setup`). -/
structure StructuralModel where
  name : String
  nodes : EList NodeE
  beams : EList LineE
  gdiv : Int
  current_group : Int
  conversion_factor : ℚ
  output_header : String
  output_footer : String
deriving DecidableEq

/-- The class-level `StructuralModel.unit_conversion` dict; `none` models
`KeyError` for an unlisted Rhino unit system. -/
def unit_conversion (us : Int) : Option ℚ :=
  if us = 2 then some (1 / 1000)
  else if us = 3 then some (1 / 100)
  else if us = 4 then some 1
  else if us = 8 then some (254 / 10000)
  else if us = 9 then some (3048 / 10000)
  else none

/-- The state `StructuralModel.__init__` assembles (`setup` first — a
`unit_conversion` lookup on the Rhino unit system, which can raise
`KeyError`, modelled by `none` — then the field assignments). -/
def StructuralModel.initState (us : Int) (name : String) :
    Option StructuralModel :=
  match unit_conversion us with
  | none => none
  | some cf =>
    let header := "$ generated by Giraffe for Rhino\n" ++ "+prog sofimsha\nhead "
      ++ name ++ "\n\nsyst init gdiv 1000\n" ++ "\nlet#conversion_factor "
      ++ toString cf
    some { name := name,
           nodes := mkEList NodeE "Nodes",
           beams := mkEList LineE "Beams",
           gdiv := 1000, current_group := -1,
           conversion_factor := cf,
           output_header := header,
           output_footer := "\nend" }

/-- A Python-level constructor call `StructuralModel(name)`: `setup` may
raise `KeyError`; otherwise `__init__` ends in `return self`, which raises
`TypeError`. -/
def StructuralModel.new (us : Int) (name : String) :
    Except PyError StructuralModel :=
  match StructuralModel.initState us name with
  | none => Except.error PyError.keyError
  | some m => pyNew (m, some m)

/-- The node branch of `add_objects_from_layer`: for each point object
(`ObjectType == 1`) build a `Node`, tag it with the layer and register it.
`fresh` threads Python object allocation (fresh `pyId`s). -/
def addNodeObjects (layer : GiraffeLayer) (objects : List RawObject)
    (st : EList NodeE) (fresh : Nat) : EList NodeE × Nat :=
  objects.foldl
    (fun acc obj =>
      if obj.objType = 1 then
        let n := { mkNodeFromObj acc.2 obj.label obj.point with
                     layer := some layer }
        ((addE nodeIntf acc.1 n).1, acc.2 + 1)
      else acc)
    (st, fresh)

/-- The line-element branch of `add_objects_from_layer`: for each curve
object (`ObjectType == 4`) build a `LineElement`, register its two endpoint
coordinates as anonymous nodes (reusing a coincident stored node when the
registry returns one), point the line at the two returned node objects, and
register the line. -/
def addLineObjects (layer : GiraffeLayer) (typ_sofi : String)
    (objects : List RawObject) (nst : EList NodeE) (bst : EList LineE)
    (fresh : Nat) : (EList NodeE × EList LineE) × Nat :=
  objects.foldl
    (fun acc obj =>
      if obj.objType = 4 then
        let bm0 := { mkLineFromObj typ_sofi obj.label with
                       layer := some layer }
        let p1 := addE nodeIntf acc.1.1 (mkNodeFromCoords acc.2 obj.curveStart)
        let p2 := addE nodeIntf p1.1 (mkNodeFromCoords (acc.2 + 1) obj.curveEnd)
        let bm := { bm0 with n1 := some p1.2.pyId, n2 := some p2.2.pyId }
        ((p2.1, (addE lineIntf acc.1.2 bm).1), acc.2 + 2)
      else acc)
    ((nst, bst), fresh)

/-- `StructuralModel.add_objects_from_layer`: layers below the top whose
root path component is `"input"` are processed — the `plural_to_sofi` lookup
happens unconditionally there and raises `KeyError` for an unknown type tag;
the `"nodes"` branch and the `line_elements` branch register objects, any
other recognized tag falls through with no change.  All other layers are
skipped, returning the model unchanged. -/
def add_objects_from_layer (m : StructuralModel) (layer : GiraffeLayer)
    (fresh : Nat) : Except PyError (StructuralModel × Nat) :=
  if layer.depth > 1 ∧ layer.path.getD 0 "" = "input" then
    let objects := layer.geometry
    let typ_plural := layer.path.getD 1 ""
    match lookupSofi typ_plural with
    | none => Except.error PyError.keyError
    | some typ_sofi =>
      if typ_plural = "nodes" then
        let r := addNodeObjects layer objects m.nodes fresh
        Except.ok ({ m with nodes := r.1 }, r.2)
      else if typ_plural ∈ line_elements then
        let r := addLineObjects layer typ_sofi objects m.nodes m.beams fresh
        Except.ok ({ m with nodes := r.1.1, beams := r.1.2 }, r.2)
      else Except.ok (m, fresh)
  else Except.ok (m, fresh)

/-- The node-number environment a `LineElement` reads through its node
references at export time: the current `no` of the node object with the
given `pyId` in the model's node registry. -/
def nodeNoEnv (m : StructuralModel) : Nat → Int :=
  fun pid =>
    match m.nodes._list.find? (fun n => decide (n.pyId = pid)) with
    | some n => n.no
    | none => -1

/-- `StructuralModel.export`: header, node registry export, line-element
registry export, footer. -/
def StructuralModel.exportStr (dec : String → RhinoTriple)
    (m : StructuralModel) : Option String :=
  match exportEList nodeIntf NodeE.exportLine dec m.nodes with
  | none => none
  | some ns =>
    match exportEList lineIntf (LineE.exportLine (nodeNoEnv m)) dec m.beams with
    | none => none
    | some bs => some (m.output_header ++ ns ++ bs ++ m.output_footer)

/-- `GiraffeLayer.get_all`: one `GiraffeLayer(name)` constructor call per
layer name (each of which raises `TypeError`, see `GiraffeLayer.new`). -/
def get_all_layers (names : List (String × List RawObject)) :
    Except PyError (List GiraffeLayer) :=
  (names.foldlM
    (fun (acc : List GiraffeLayer × Nat) (p : String × List RawObject) =>
      match GiraffeLayer.new acc.2 p.1 p.2 with
      | Except.error e => Except.error e
      | Except.ok l => Except.ok (acc.1 ++ [l], acc.2 + 1))
    ([], 0)).map (fun (acc : List GiraffeLayer × Nat) => acc.1)

/-- The `Main` entry point: construct the model, enumerate the layers,
ingest each, export (`make_file`'s file write is external; we return the
text it would write). -/
def Main (us : Int) (dec : String → RhinoTriple)
    (names : List (String × List RawObject)) : Except PyError String :=
  match StructuralModel.new us "structure" with
  | Except.error e => Except.error e
  | Except.ok sofi =>
    match get_all_layers names with
    | Except.error e => Except.error e
    | Except.ok layers =>
      match layers.foldlM
          (fun acc l => add_objects_from_layer acc.1 l acc.2)
          (sofi, 0) with
      | Except.error e => Except.error e
      | Except.ok r =>
        match r.1.exportStr dec with
        | none => Except.error PyError.keyError
        | some s => Except.ok s

/-!  Properties and predicates used by the verification theorems. -/

/-- The pairwise relation of the registry invariant: the two elements are
not identical under the kind's equality predicate (either way round) and do
not share `(number, group)`. -/
def RegRel {α : Type} (I : ElemIntf α) (a b : α) : Prop :=
  I.identTo a b = false ∧ I.identTo b a = false ∧
    ¬ (I.no a = I.no b ∧ I.grp a = I.grp b)

/-- The registry invariant: `RegRel` pairwise along the stored list. -/
def RegInv {α : Type} (I : ElemIntf α) (st : EList α) : Prop :=
  List.Pairwise (RegRel I) st._list

/-- Registries reachable from the freshly constructed `ElementList` by any
sequence of `add` calls. -/
inductive Reach {α : Type} (I : ElemIntf α) : EList α → Prop where
  | base : ∀ nm, Reach I (mkEList α nm)
  | step : ∀ st e, Reach I st → Reach I (addE I st e).1

/-- The correspondence between the source export loop's `current_layer`
variable and "the immediately preceding entity's marker" (`none` = no
preceding entity). -/
def slotRel : LayerSlot → Option (Option GiraffeLayer) → Prop
  | LayerSlot.sentinel, none => True
  | LayerSlot.noneL, some none => True
  | LayerSlot.layerL q, some (some p) => q = p
  | _, _ => False

/-- A run of `add` calls in which no incoming element is deduplicated:
at every step `get_identical_to` comes up empty. -/
def NoDupRun {α : Type} (I : ElemIntf α) : EList α → List α → Prop
  | _, [] => True
  | st, e :: es =>
    get_identical_to I st e = none ∧ NoDupRun I (addE I st e).1 es

/-- What the lowest-free-number policy promises for the numbers handed out
by a run of unassigned-number registrations against a start registry `st`:
strictly increasing, each positive and free in `st`, nothing skipped below
the first one, and nothing skipped between consecutive ones, except numbers
already taken in `st`. -/
def SeqSpec {α : Type} (I : ElemIntf α) (st : EList α) (g : Int)
    (nos : List Int) : Prop :=
  List.Chain' (fun a b => a < b) nos ∧
  (∀ x ∈ nos, 1 ≤ x ∧ is_taken_number I st x g = false) ∧
  (∀ m : Int, 1 ≤ m → 0 < nos.length → m < nos.getD 0 0 →
    is_taken_number I st m g = true) ∧
  (∀ i : Nat, ∀ m : Int, i + 1 < nos.length → nos.getD i 0 < m →
    m < nos.getD (i + 1) 0 → is_taken_number I st m g = true)

/-!  Concrete fixtures used in counterexamples and witnesses. -/

/-- A trivial external label decoder: nothing parses to a number. -/
def decTrivial : String → RhinoTriple :=
  fun _ => { no := -1, name := "", prop := "" }

/-- A decoder for the grouped-layer fixtures. -/
def decGrp : String → RhinoTriple := fun s =>
  if s = "5 g5" then { no := 5, name := "g5", prop := "" }
  else if s = "7 g7" then { no := 7, name := "g7", prop := "" }
  else { no := -1, name := "", prop := "" }

/-- An anonymous node at the origin. -/
def nOrigin : NodeE := mkNodeFromCoords 0 { x := 0, y := 0, z := 0 }

/-- The origin node as stored by the first `add` into an empty registry:
auto-assigned number 1. -/
def nOriginStored : NodeE := { nOrigin with no := 1 }

/-- A registry holding just the auto-numbered origin node. -/
def stOne : EList NodeE := (addE nodeIntf (mkEList NodeE "Nodes") nOrigin).1

/-- A strictly named node (label number 1) far from the origin. -/
def nStrict1 : NodeE :=
  mkNodeFromObj 1 { no := 1, name := "", prop := "" } { x := 50, y := 0, z := 0 }

/-- A strictly named node (label number 2) far from everything, used to
reserve number 2. -/
def nStrict2 : NodeE :=
  mkNodeFromObj 2 { no := 2, name := "", prop := "" } { x := 100, y := 0, z := 0 }

/-- A registry in which number 2 is reserved by explicit numbering. -/
def stReserved : EList NodeE :=
  (addE nodeIntf (mkEList NodeE "Nodes") nStrict2).1

/-- Three anonymous, mutually distant nodes. -/
def esAnon : List NodeE :=
  [mkNodeFromCoords 10 { x := 0, y := 0, z := 0 },
   mkNodeFromCoords 11 { x := 0, y := 0, z := 10 },
   mkNodeFromCoords 12 { x := 0, y := 0, z := 20 }]

/-- Two anonymous nodes within tolerance of the origin. -/
def nsNearOrigin : List NodeE :=
  [mkNodeFromCoords 20 { x := 0, y := 0, z := 1 / 20 },
   mkNodeFromCoords 21 { x := 1 / 20, y := 0, z := 0 }]

/-- A raw point object (Rhino type 1) at the given position, unlabeled. -/
def ptObj (v : Vec3) : RawObject :=
  { objType := 1, label := { no := -1, name := "", prop := "" },
    point := v, curveStart := { x := 0, y := 0, z := 0 },
    curveEnd := { x := 0, y := 0, z := 0 } }

/-- A raw curve object (Rhino type 4) with the given endpoints, unlabeled. -/
def cvObj (a b : Vec3) : RawObject :=
  { objType := 4, label := { no := -1, name := "", prop := "" },
    point := { x := 0, y := 0, z := 0 }, curveStart := a, curveEnd := b }

/-- The model state `StructuralModel.__init__` assembles for unit system 4
(meters) and name "structure"; certified against
`StructuralModel.initState` in the theorems below. -/
def m0 : StructuralModel :=
  { name := "structure",
    nodes := mkEList NodeE "Nodes",
    beams := mkEList LineE "Beams",
    gdiv := 1000, current_group := -1, conversion_factor := 1,
    output_header := "$ generated by Giraffe for Rhino\n" ++ "+prog sofimsha\nhead "
      ++ "structure" ++ "\n\nsyst init gdiv 1000\n"
      ++ "\nlet#conversion_factor " ++ toString (1 : ℚ),
    output_footer := "\nend" }

/-- An input layer with an unrecognized type tag. -/
def layerWalls : GiraffeLayer :=
  mkGiraffeLayer 12 "input::walls" [ptObj { x := 0, y := 0, z := 0 }]

/-- An input layer with a recognized tag that is neither nodes nor a line
element. -/
def layerSprings : GiraffeLayer :=
  mkGiraffeLayer 16 "input::springs" [ptObj { x := 0, y := 0, z := 0 }]

/-- A layer outside the `input` tree. -/
def layerTemp : GiraffeLayer :=
  mkGiraffeLayer 17 "temp::stuff" [ptObj { x := 0, y := 0, z := 0 }]

/-- An input cables layer with one curve. -/
def layerCables : GiraffeLayer :=
  mkGiraffeLayer 13 "input::cables::c"
    [cvObj { x := 0, y := 0, z := 0 } { x := 10, y := 0, z := 0 }]

/-- An input trusses layer with one curve, far from the cable. -/
def layerTrusses : GiraffeLayer :=
  mkGiraffeLayer 14 "input::trusses::t"
    [cvObj { x := 0, y := 0, z := 100 } { x := 10, y := 0, z := 100 }]

/-- An anonymous stored node with the given identity token, number and
coordinates (the shape line-endpoint nodes take after registration). -/
def anonNode (pyId : Nat) (no : Int) (x y z : ℚ) : NodeE :=
  { pyId := pyId, typ := "node", grp := -1, no := no, prop := "",
    name := "", strict_naming := false, layer := none, x := x, y := y,
    z := z }

/-- A stored anonymous line element of the given type, referencing two
node identity tokens. -/
def anonLine (typ : String) (no : Int) (layer : GiraffeLayer)
    (n1 n2 : Nat) : LineE :=
  { typ := typ, grp := -1, no := no, prop := "", name := "",
    strict_naming := false, layer := some layer, n1 := some n1,
    n2 := some n2 }

/-- The node registry contents after ingesting the cables layer. -/
def nodesCab : EList NodeE :=
  { name := "Nodes",
    _list := [anonNode 0 1 0 0 0, anonNode 1 2 10 0 0], _errors := [] }

/-- The shared line registry contents after ingesting the cables layer. -/
def beamsCab : EList LineE :=
  { name := "Beams", _list := [anonLine "cabl" 1 layerCables 0 1],
    _errors := [] }

/-- The model state after ingesting the cables layer into the fresh
model. -/
def mCab : StructuralModel := { m0 with nodes := nodesCab, beams := beamsCab }

/-- The node registry contents after also ingesting the trusses layer. -/
def nodesCabTrus : EList NodeE :=
  { name := "Nodes",
    _list := [anonNode 0 1 0 0 0, anonNode 1 2 10 0 0,
      anonNode 2 3 0 0 100, anonNode 3 4 10 0 100], _errors := [] }

/-- The shared line registry contents after also ingesting the trusses
layer: cable and truss sit in the same registry, in insertion order. -/
def beamsCabTrus : EList LineE :=
  { name := "Beams",
    _list := [anonLine "cabl" 1 layerCables 0 1,
      anonLine "trus" 2 layerTrusses 2 3], _errors := [] }

/-- The model state after ingesting cables, then trusses. -/
def mCabTrus : StructuralModel :=
  { m0 with nodes := nodesCabTrus, beams := beamsCabTrus }

/-- An input nodes layer whose third path component decodes to group 5. -/
def layerGrp5 : GiraffeLayer :=
  mkGiraffeLayer 15 "input::nodes::5 g5" [ptObj { x := 0, y := 0, z := 0 }]

/-- An input nodes layer whose third path component decodes to group 7. -/
def layerGrp7 : GiraffeLayer :=
  mkGiraffeLayer 18 "input::nodes::7 g7" [ptObj { x := 0, y := 0, z := 50 }]

/-!  Helper lemmas about the registry primitives. -/

/-- A successful `find?` splits the list at the first hit. -/
theorem find?_decomp {α : Type} {p : α → Bool} {l : List α} {c : α}
    (h : l.find? p = some c) :
    ∃ l₁ l₂, l = l₁ ++ c :: l₂ ∧ (∀ a ∈ l₁, p a = false) ∧ p c = true := by
  induction l with
  | nil => simp [List.find?] at h
  | cons b t ih =>
    by_cases hb : p b = true
    · have hbc : b = c := by
        rw [List.find?_cons_of_pos _ hb] at h
        exact Option.some.inj h
      subst hbc
      exact ⟨[], t, rfl, by intro a ha; simp at ha, hb⟩
    · have hb' : p b = false := by
        cases hpb : p b
        · rfl
        · exact absurd hpb hb
      rw [List.find?_cons_of_neg _ (by simp [hb'])] at h
      obtain ⟨l₁, l₂, hl, h₁, hc⟩ := ih h
      refine ⟨b :: l₁, l₂, by simp [hl], ?_, hc⟩
      intro a ha
      rcases List.mem_cons.1 ha with rfl | ha
      · exact hb'
      · exact h₁ a ha

/-- `replaceFirst` on a list split at its first hit replaces exactly the
hit. -/
theorem replaceFirst_decomp {α : Type} {p : α → Bool} {v c : α}
    {l₁ l₂ : List α} (h₁ : ∀ a ∈ l₁, p a = false) (hc : p c = true) :
    replaceFirst p v (l₁ ++ c :: l₂) = l₁ ++ v :: l₂ := by
  induction l₁ with
  | nil => simp [replaceFirst, hc]
  | cons b t ih =>
    have hb : p b = false := h₁ b (by simp)
    have ih' := ih (fun a ha => h₁ a (by simp [ha]))
    simp [replaceFirst, hb, ih']

/-- Counting a strictly weaker predicate over a list containing a
distinguishing element gives a strictly smaller count. -/
theorem countP_lt_of_mem {α : Type} {p q : α → Bool} {l : List α} {a : α}
    (ha : a ∈ l) (hpa : p a = true) (hqa : q a = false)
    (hmono : ∀ x, q x = true → p x = true) :
    l.countP q < l.countP p := by
  have hle : ∀ t : List α, t.countP q ≤ t.countP p := by
    intro t
    induction t with
    | nil => simp
    | cons b s ih =>
      rw [List.countP_cons, List.countP_cons]
      by_cases hq : q b = true
      · rw [if_pos hq, if_pos (hmono b hq)]; omega
      · have : ¬ q b = true := hq
        rw [if_neg this]
        by_cases hp : p b = true
        · rw [if_pos hp]; omega
        · rw [if_neg hp]; omega
  induction l with
  | nil => simp at ha
  | cons b t ih =>
    rw [List.countP_cons, List.countP_cons]
    rcases List.mem_cons.1 ha with rfl | ha'
    · rw [if_pos hpa, if_neg (by simp [hqa])]
      have := hle t; omega
    · have h1 := ih ha'
      by_cases hq : q b = true
      · rw [if_pos hq, if_pos (hmono b hq)]; omega
      · rw [if_neg hq]
        by_cases hp : p b = true
        · rw [if_pos hp]; omega
        · rw [if_neg hp]; omega

/-- Unfolding characterisation of `is_taken_number`. -/
theorem is_taken_number_iff {α : Type} (I : ElemIntf α) (st : EList α)
    (n g : Int) :
    is_taken_number I st n g = true ↔
      ∃ el ∈ st._list, I.no el = n ∧ I.grp el = g := by
  unfold is_taken_number
  rw [List.any_eq_true]
  constructor
  · rintro ⟨el, hel, h⟩; exact ⟨el, hel, of_decide_eq_true h⟩
  · rintro ⟨el, hel, h⟩; exact ⟨el, hel, decide_eq_true h⟩

/-- The fueled loop body of `get_available_number` meets the
lowest-free-number specification as soon as the fuel exceeds the number of
list elements in the group with number at least the starting point. -/
theorem availAux_spec {α : Type} (I : ElemIntf α) (st : EList α) (g : Int) :
    ∀ (fuel : Nat) (n : Int),
      st._list.countP (fun el => decide (I.grp el = g ∧ n ≤ I.no el)) < fuel →
      n ≤ availAux I st g fuel n ∧
      is_taken_number I st (availAux I st g fuel n) g = false ∧
      ∀ m, n ≤ m → m < availAux I st g fuel n →
        is_taken_number I st m g = true := by
  intro fuel
  induction fuel with
  | zero => intro n h; exact absurd h (by omega)
  | succ fuel ih =>
    intro n hcount
    by_cases htaken : is_taken_number I st n g = true
    · have hstep : availAux I st g (fuel + 1) n = availAux I st g fuel (n + 1) := by
        simp [availAux, htaken]
      obtain ⟨el, hel, helno, helgrp⟩ := (is_taken_number_iff I st n g).1 htaken
      have hlt : st._list.countP
          (fun el => decide (I.grp el = g ∧ n + 1 ≤ I.no el)) <
          st._list.countP (fun el => decide (I.grp el = g ∧ n ≤ I.no el)) := by
        refine countP_lt_of_mem hel ?_ ?_ ?_
        · exact decide_eq_true ⟨helgrp, le_of_eq helno.symm⟩
        · simp only [decide_eq_false_iff_not]
          rintro ⟨-, hle⟩; omega
        · intro x hx
          have hx' := of_decide_eq_true hx
          exact decide_eq_true ⟨hx'.1, by omega⟩
      have ih' := ih (n + 1) (by omega)
      refine ⟨?_, ?_, ?_⟩
      · rw [hstep]; omega
      · rw [hstep]; exact ih'.2.1
      · intro m hm hmlt
        rw [hstep] at hmlt
        by_cases hmn : m = n
        · rw [hmn]; exact htaken
        · exact ih'.2.2 m (by omega) hmlt
    · have hfalse : is_taken_number I st n g = false := by
        simp [Bool.not_eq_true] at htaken; exact htaken
      have hstep : availAux I st g (fuel + 1) n = n := by
        simp [availAux, hfalse]
      rw [hstep]
      exact ⟨le_refl n, hfalse, fun m hm hmlt => absurd hmlt (by omega)⟩

/-- `get_available_number` returns the least number `≥ 1` that is free in
the group: it is positive, free, and everything positive below it is
taken. -/
theorem get_available_number_spec {α : Type} (I : ElemIntf α)
    (st : EList α) (g : Int) :
    1 ≤ get_available_number I st g ∧
    is_taken_number I st (get_available_number I st g) g = false ∧
    ∀ m, 1 ≤ m → m < get_available_number I st g →
      is_taken_number I st m g = true := by
  unfold get_available_number
  exact availAux_spec I st g (st._list.length + 1) 1
    (by
      have := List.countP_le_length
        (fun el => decide (I.grp el = g ∧ 1 ≤ I.no el)) (l := st._list)
      omega)

/-!  Branch equations for `add` and `resolve_numbering_conflict`. -/

/-- `add` when an identical element is found: return it, change nothing. -/
theorem addE_ident {α : Type} (I : ElemIntf α) (st : EList α) {e i : α}
    (h : get_identical_to I st e = some i) : addE I st e = (st, i) := by
  simp [addE, h]

/-- `add` of an unassigned-number element: assign the lowest free number and
append. -/
theorem addE_unassigned {α : Type} (I : ElemIntf α) (st : EList α) {e : α}
    (hid : get_identical_to I st e = none) (hno : I.no e = -1) :
    addE I st e =
      ({ st with _list := st._list ++ [add_number I st e] },
        add_number I st e) := by
  simp [addE, hid, hno]

/-- `add` of an explicitly numbered element without a conflict: append
as-is. -/
theorem addE_noconflict {α : Type} (I : ElemIntf α) (st : EList α) {e : α}
    (hid : get_identical_to I st e = none) (hno : ¬ I.no e = -1)
    (hc : get_conflicting_element I st e = none) :
    addE I st e = ({ st with _list := st._list ++ [e] }, e) := by
  simp [addE, hid, hno, hc]

/-- `add` of an explicitly numbered element with a conflict: the stored list
is the resolved list with the (possibly renumbered) new element appended. -/
theorem addE_conflict_list {α : Type} (I : ElemIntf α) (st : EList α)
    {e c : α} (hid : get_identical_to I st e = none) (hno : ¬ I.no e = -1)
    (hc : get_conflicting_element I st e = some c) :
    (addE I st e).1._list =
      (resolve_numbering_conflict I st c e).1._list
        ++ [(resolve_numbering_conflict I st c e).2] := by
  simp [addE, hid, hno, hc]

/-- In the conflict case the errors are the resolved errors. -/
theorem addE_conflict_errors {α : Type} (I : ElemIntf α) (st : EList α)
    {e c : α} (hid : get_identical_to I st e = none) (hno : ¬ I.no e = -1)
    (hc : get_conflicting_element I st e = some c) :
    (addE I st e).1._errors =
      (resolve_numbering_conflict I st c e).1._errors := by
  simp [addE, hid, hno, hc]

/-- In the conflict case the returned element is the resolved new element. -/
theorem addE_conflict_ret {α : Type} (I : ElemIntf α) (st : EList α)
    {e c : α} (hid : get_identical_to I st e = none) (hno : ¬ I.no e = -1)
    (hc : get_conflicting_element I st e = some c) :
    (addE I st e).2 = (resolve_numbering_conflict I st c e).2 := by
  simp [addE, hid, hno, hc]

/-- Conflict resolution, rule 1 (existing element not strictly named):
the stored list has the first conflicting element renumbered in place. -/
theorem resolve_nonstrict_list {α : Type} (I : ElemIntf α) (st : EList α)
    {c e : α} (h : I.strict c = false) :
    (resolve_numbering_conflict I st c e).1._list =
      replaceFirst
        (fun el => decide (I.no el = I.no e ∧ I.grp el = I.grp e))
        (add_number I st c) st._list := by
  simp [resolve_numbering_conflict, h]

/-- Conflict resolution, rule 1 is silent: no warning is appended. -/
theorem resolve_nonstrict_errors {α : Type} (I : ElemIntf α) (st : EList α)
    {c e : α} (h : I.strict c = false) :
    (resolve_numbering_conflict I st c e).1._errors = st._errors := by
  simp [resolve_numbering_conflict, h]

/-- Conflict resolution, rule 1: the new element is returned unchanged. -/
theorem resolve_nonstrict_ret {α : Type} (I : ElemIntf α) (st : EList α)
    {c e : α} (h : I.strict c = false) :
    (resolve_numbering_conflict I st c e).2 = e := by
  simp [resolve_numbering_conflict, h]

/-- Conflict resolution, rule 2 (existing element strictly named): the
stored list is untouched by the resolution itself. -/
theorem resolve_strict_list {α : Type} (I : ElemIntf α) (st : EList α)
    {c e : α} (h : I.strict c = true) :
    (resolve_numbering_conflict I st c e).1._list = st._list := by
  simp [resolve_numbering_conflict, h]

/-- Conflict resolution, rule 2: exactly one warning is appended, showing
the existing element's (kept) number and the new element's fresh number. -/
theorem resolve_strict_errors {α : Type} (I : ElemIntf α) (st : EList α)
    {c e : α} (h : I.strict c = true) :
    (resolve_numbering_conflict I st c e).1._errors =
      st._errors ++
        ["Numbering conflict, node number " ++ toString (I.no c)
          ++ " changed to " ++ toString (I.no (add_number I st e)) ++ "."] := by
  simp [resolve_numbering_conflict, h]

/-- Conflict resolution, rule 2: the renumbered new element is returned. -/
theorem resolve_strict_ret {α : Type} (I : ElemIntf α) (st : EList α)
    {c e : α} (h : I.strict c = true) :
    (resolve_numbering_conflict I st c e).2 = add_number I st e := by
  simp [resolve_numbering_conflict, h]

/-- `RegRel` is symmetric (it packages both directions). -/
theorem RegRel_symm {α : Type} (I : ElemIntf α) {a b : α}
    (h : RegRel I a b) : RegRel I b a :=
  ⟨h.2.1, h.1, fun hp => h.2.2 ⟨hp.1.symm, hp.2.symm⟩⟩

/-- If `get_identical_to` finds nothing, the probe element is not identical
to any stored element. -/
theorem get_identical_to_none {α : Type} (I : ElemIntf α) (st : EList α)
    {e : α} (h : get_identical_to I st e = none) :
    ∀ a ∈ st._list, I.identTo e a = false := by
  intro a ha
  unfold get_identical_to at h
  rw [List.find?_eq_none] at h
  have := h a ha
  cases hia : I.identTo e a
  · rfl
  · exact absurd hia this

/-- If `get_conflicting_element` finds nothing, no stored element shares
the probe's `(number, group)`. -/
theorem get_conflicting_element_none {α : Type} (I : ElemIntf α)
    (st : EList α) {e : α} (h : get_conflicting_element I st e = none) :
    ∀ a ∈ st._list, ¬ (I.no a = I.no e ∧ I.grp a = I.grp e) := by
  intro a ha
  unfold get_conflicting_element at h
  rw [List.find?_eq_none] at h
  have := h a ha
  intro hcontra
  exact this (decide_eq_true hcontra)

/-- A stored element's `(number, group)` is taken. -/
theorem is_taken_of_mem {α : Type} (I : ElemIntf α) (st : EList α) {a : α}
    (ha : a ∈ st._list) : is_taken_number I st (I.no a) (I.grp a) = true :=
  (is_taken_number_iff I st (I.no a) (I.grp a)).2 ⟨a, ha, rfl, rfl⟩

/-- One `add` call preserves the registry invariant. -/
theorem addE_inv {α : Type} (I : ElemIntf α) (hG : GoodIntf I)
    (st : EList α) (e : α) (hinv : RegInv I st) :
    RegInv I (addE I st e).1 := by
  obtain ⟨hsym, hsetno, hsetgrp, hidl, hidr⟩ := hG
  match hid : get_identical_to I st e with
  | some i =>
    rw [addE_ident I st hid]
    exact hinv
  | none =>
    have hnotid : ∀ a ∈ st._list, I.identTo e a = false :=
      get_identical_to_none I st hid
    by_cases hno : I.no e = -1
    · -- unassigned: append with the lowest free number
      rw [addE_unassigned I st hid hno]
      unfold RegInv at hinv ⊢
      dsimp only
      rw [List.pairwise_append]
      obtain ⟨hpos, hfree, -⟩ := get_available_number_spec I st (I.grp e)
      refine ⟨hinv, by simp, ?_⟩
      intro a ha b hb
      rw [List.mem_singleton] at hb
      subst hb
      refine ⟨?_, ?_, ?_⟩
      · rw [add_number, hidr, hsym]
        exact hnotid a ha
      · rw [add_number, hidl]
        exact hnotid a ha
      · rw [add_number, hsetno, hsetgrp]
        rintro ⟨hna, hga⟩
        have htk : is_taken_number I st (get_available_number I st (I.grp e))
            (I.grp e) = true := by
          rw [← hna, ← hga]
          exact is_taken_of_mem I st ha
        rw [hfree] at htk
        exact Bool.noConfusion htk
    · match hc : get_conflicting_element I st e with
      | none =>
        rw [addE_noconflict I st hid hno hc]
        unfold RegInv at hinv ⊢
        dsimp only
        rw [List.pairwise_append]
        refine ⟨hinv, by simp, ?_⟩
        intro a ha b hb
        rw [List.mem_singleton] at hb
        subst hb
        exact ⟨by rw [hsym]; exact hnotid a ha, hnotid a ha,
          get_conflicting_element_none I st hc a ha⟩
      | some c =>
        unfold RegInv
        rw [addE_conflict_list I st hid hno hc]
        obtain ⟨l₁, l₂, hsplit, hl₁, hcpred⟩ :=
          find?_decomp (p := fun el =>
            decide (I.no el = I.no e ∧ I.grp el = I.grp e)) hc
        have hcng : I.no c = I.no e ∧ I.grp c = I.grp e :=
          of_decide_eq_true hcpred
        have hl₁' : ∀ a ∈ l₁, ¬ (I.no a = I.no e ∧ I.grp a = I.grp e) := by
          intro a ha hcontra
          have hfa := hl₁ a ha
          rw [decide_eq_true hcontra] at hfa
          exact Bool.noConfusion hfa
        have hmem₁ : ∀ a ∈ l₁, a ∈ st._list := by
          intro a ha; rw [hsplit]; simp [ha]
        have hmem₂ : ∀ b ∈ l₂, b ∈ st._list := by
          intro b hb; rw [hsplit]; simp [hb]
        have hmemc : c ∈ st._list := by rw [hsplit]; simp
        by_cases hstrict : I.strict c = true
        · -- rule 2: renumber the new element, append warning
          rw [resolve_strict_list I st hstrict, resolve_strict_ret I st hstrict]
          unfold RegInv at hinv
          rw [List.pairwise_append]
          obtain ⟨hpos, hfree, -⟩ := get_available_number_spec I st (I.grp e)
          refine ⟨hinv, by simp, ?_⟩
          intro a ha b hb
          rw [List.mem_singleton] at hb
          subst hb
          refine ⟨?_, ?_, ?_⟩
          · rw [add_number, hidr, hsym]
            exact hnotid a ha
          · rw [add_number, hidl]
            exact hnotid a ha
          · rw [add_number, hsetno, hsetgrp]
            rintro ⟨hna, hga⟩
            have htk : is_taken_number I st
                (get_available_number I st (I.grp e)) (I.grp e) = true := by
              rw [← hna, ← hga]
              exact is_taken_of_mem I st ha
            rw [hfree] at htk
            exact Bool.noConfusion htk
        · -- rule 1: renumber the existing element in place, keep the new
          -- element's number
          have hstrict' : I.strict c = false := by
            cases hsc : I.strict c
            · rfl
            · exact absurd hsc hstrict
          rw [resolve_nonstrict_list I st hstrict',
            resolve_nonstrict_ret I st hstrict']
          unfold RegInv at hinv
          obtain ⟨hpos, hfree, -⟩ := get_available_number_spec I st (I.grp c)
          set avail := get_available_number I st (I.grp c) with havail
          have hrepl : replaceFirst
              (fun el => decide (I.no el = I.no e ∧ I.grp el = I.grp e))
              (add_number I st c) st._list = l₁ ++ I.setNo c avail :: l₂ := by
            rw [hsplit, replaceFirst_decomp hl₁ hcpred]
            rfl
          rw [hrepl]
          rw [hsplit] at hinv
          rw [List.pairwise_append, List.pairwise_cons] at hinv
          obtain ⟨hp₁, ⟨hcl₂, hp₂⟩, hcross⟩ := hinv
          have hcl₁ : ∀ a ∈ l₁, RegRel I a c := fun a ha =>
            hcross a ha c (by simp)
          have hcrossl₂ : ∀ a ∈ l₁, ∀ b ∈ l₂, RegRel I a b :=
            fun a ha b hb => hcross a ha b (by simp [hb])
          -- the fresh number cannot collide with any stored element
          have hnotavail : ∀ a ∈ st._list,
              ¬ (I.no a = avail ∧ I.grp a = I.grp c) := by
            intro a ha hcontra
            have htk : is_taken_number I st avail (I.grp c) = true := by
              rw [← hcontra.1, ← hcontra.2]
              exact is_taken_of_mem I st ha
            rw [hfree] at htk
            exact Bool.noConfusion htk
          -- relations of stored elements with the renumbered existing one
          have hRc' : ∀ a ∈ st._list, RegRel I a c →
              RegRel I a (I.setNo c avail) := by
            intro a ha hR
            refine ⟨by rw [hidr]; exact hR.1, by rw [hidl]; exact hR.2.1, ?_⟩
            rw [hsetno, hsetgrp]
            exact fun hcontra => hnotavail a ha hcontra
          have hc'R : ∀ b ∈ st._list, RegRel I c b →
              RegRel I (I.setNo c avail) b := by
            intro b hb hR
            refine ⟨by rw [hidl]; exact hR.1, by rw [hidr]; exact hR.2.1, ?_⟩
            rw [hsetno, hsetgrp]
            rintro ⟨h1, h2⟩
            exact hnotavail b hb ⟨h1.symm, h2.symm⟩
          -- relations of everything with the appended new element
          have hRe : ∀ a ∈ st._list,
              ¬ (I.no a = I.no e ∧ I.grp a = I.grp e) → RegRel I a e := by
            intro a ha hp
            exact ⟨by rw [hsym]; exact hnotid a ha, hnotid a ha, hp⟩
          have hc'e : RegRel I (I.setNo c avail) e := by
            refine ⟨?_, ?_, ?_⟩
            · rw [hidl, hsym]
              exact hnotid c hmemc
            · rw [hidr]
              exact hnotid c hmemc
            · rw [hsetno, hsetgrp]
              rintro ⟨h1, h2⟩
              -- avail is free while the requested number is taken by c
              have htk : is_taken_number I st avail (I.grp c) = true := by
                rw [h1, ← hcng.1]
                exact is_taken_of_mem I st hmemc
              rw [hfree] at htk
              exact Bool.noConfusion htk
          have hl₂e : ∀ b ∈ l₂, RegRel I b e := by
            intro b hb
            refine hRe b (hmem₂ b hb) ?_
            rintro ⟨h1, h2⟩
            -- a second element with the conflicting pair would have
            -- violated the old invariant against c
            exact (hcl₂ b hb).2.2 ⟨hcng.1.trans h1.symm, hcng.2.trans h2.symm⟩
          -- assemble the pairwise fact for l₁ ++ c' :: l₂ ++ [e]
          rw [List.pairwise_append, List.pairwise_append, List.pairwise_cons]
          refine ⟨⟨hp₁, ⟨?_, hp₂⟩, ?_⟩, by simp, ?_⟩
          · intro b hb
            exact hc'R b (hmem₂ b hb) (hcl₂ b hb)
          · intro a ha b hb
            rcases List.mem_cons.1 hb with rfl | hb'
            · exact hRc' a (hmem₁ a ha) (hcl₁ a ha)
            · exact hcrossl₂ a ha b hb'
          · intro a ha b hb
            rw [List.mem_singleton] at hb
            subst hb
            rcases List.mem_append.1 ha with ha₁ | hax
            · exact hRe a (hmem₁ a ha₁) (hl₁' a ha₁)
            · rcases List.mem_cons.1 hax with rfl | ha₂
              · exact hc'e
              · exact hl₂e a ha₂

/-- Every reachable registry satisfies the invariant. -/
theorem reach_inv {α : Type} (I : ElemIntf α) (hG : GoodIntf I)
    (st : EList α) (h : Reach I st) : RegInv I st := by
  induction h with
  | base nm => exact List.Pairwise.nil
  | step st e _ ih => exact addE_inv I hG st e ih

/-- First `add` into a fresh registry: exactly one element is stored — the
returned one — and no warnings are recorded. -/
theorem addE_empty_spec {α : Type} (I : ElemIntf α) (nm : String) (e : α) :
    (addE I (mkEList α nm) e).1._list = [(addE I (mkEList α nm) e).2] ∧
    (addE I (mkEList α nm) e).1._errors = [] := by
  have hid0 : get_identical_to I (mkEList α nm) e = none := rfl
  by_cases hno : I.no e = -1
  · rw [addE_unassigned I _ hid0 hno]
    exact ⟨rfl, rfl⟩
  · have hc : get_conflicting_element I (mkEList α nm) e = none := rfl
    rw [addE_noconflict I _ hid0 hno hc]
    exact ⟨rfl, rfl⟩

/-- The element stored by a first `add` is, up to its number, the incoming
element: the equality predicate cannot tell them apart. -/
theorem addE_empty_identTo {α : Type} (I : ElemIntf α) (hG : GoodIntf I)
    (nm : String) (e m : α) :
    I.identTo m (addE I (mkEList α nm) e).2 = I.identTo m e := by
  obtain ⟨-, -, -, -, hidr⟩ := hG
  have hid0 : get_identical_to I (mkEList α nm) e = none := rfl
  by_cases hno : I.no e = -1
  · rw [addE_unassigned I _ hid0 hno]
    exact hidr m e _
  · have hc : get_conflicting_element I (mkEList α nm) e = none := rfl
    rw [addE_noconflict I _ hid0 hno hc]

/-- Adding a run of elements that are all identical to the sole stored one
changes nothing and always returns the stored element. -/
theorem addRun_all_ident {α : Type} (I : ElemIntf α) (st : EList α) (r : α)
    (hst : st._list = [r]) :
    ∀ ns : List α, (∀ m ∈ ns, I.identTo m r = true) →
      (addRun I st ns).1 = st ∧ ∀ x ∈ (addRun I st ns).2, x = r := by
  intro ns
  induction ns with
  | nil => intro _; exact ⟨rfl, by intro x hx; simp [addRun] at hx⟩
  | cons e rest ih =>
    intro h
    have hident : get_identical_to I st e = some r := by
      unfold get_identical_to
      rw [hst]
      exact List.find?_cons_of_pos _ (h e (by simp))
    have hrec := ih (fun m hm => h m (by simp [hm]))
    unfold addRun
    rw [addE_ident I st hident]
    refine ⟨hrec.1, ?_⟩
    intro x hx
    rcases List.mem_cons.1 hx with rfl | hx'
    · rfl
    · exact hrec.2 x hx'

/-- What is taken after adding one unassigned-number element: the old taken
pairs plus the freshly assigned `(lowest free, group)`. -/
theorem is_taken_after_unassigned_add {α : Type} (I : ElemIntf α)
    (hG : GoodIntf I) (st : EList α) (e : α)
    (hid : get_identical_to I st e = none) (hno : I.no e = -1)
    (m g' : Int) :
    is_taken_number I (addE I st e).1 m g' =
      (is_taken_number I st m g' ||
        decide (m = get_available_number I st (I.grp e)
          ∧ g' = I.grp e)) := by
  obtain ⟨-, hsetno, hsetgrp, -, -⟩ := hG
  rw [addE_unassigned I st hid hno]
  show (st._list ++ [add_number I st e]).any _ = _
  rw [List.any_append]
  congr 1
  show [add_number I st e].any _ = _
  simp only [List.any_cons, List.any_nil, Bool.or_false]
  rw [add_number, hsetno, hsetgrp]
  rw [Bool.eq_iff_iff, decide_eq_true_iff, decide_eq_true_iff]
  constructor
  · rintro ⟨h1, h2⟩; exact ⟨h1.symm, h2.symm⟩
  · rintro ⟨h1, h2⟩; exact ⟨h1.symm, h2.symm⟩

/-- `getD` of an in-range index is a member. -/
theorem getD_mem_int : ∀ (l : List Int) (j : Nat), j < l.length →
    l.getD j 0 ∈ l := by
  intro l
  induction l with
  | nil => intro j hj; simp at hj
  | cons a t ih =>
    intro j hj
    cases j with
    | zero => simp
    | succ j' =>
      have := ih j' (by simpa using hj)
      simp [List.getD_cons_succ]
      right
      simpa using this

/-- `add` keeps any per-element property that survives renumbering. -/
theorem addE_all {α : Type} (I : ElemIntf α) (P : α → Prop)
    (hP : ∀ a n, P a → P (I.setNo a n)) (st : EList α) (e : α)
    (hst : ∀ a ∈ st._list, P a) (he : P e) :
    ∀ a ∈ (addE I st e).1._list, P a := by
  match hid : get_identical_to I st e with
  | some i =>
    rw [addE_ident I st hid]
    exact hst
  | none =>
    by_cases hno : I.no e = -1
    · rw [addE_unassigned I st hid hno]
      intro a ha
      have ha' : a ∈ st._list ++ [add_number I st e] := ha
      rcases List.mem_append.1 ha' with h | h
      · exact hst a h
      · rw [List.mem_singleton] at h
        subst h
        exact hP e _ he
    · match hc : get_conflicting_element I st e with
      | none =>
        rw [addE_noconflict I st hid hno hc]
        intro a ha
        have ha' : a ∈ st._list ++ [e] := ha
        rcases List.mem_append.1 ha' with h | h
        · exact hst a h
        · rw [List.mem_singleton] at h
          subst h
          exact he
      | some c =>
        intro a ha
        have ha' : a ∈ (resolve_numbering_conflict I st c e).1._list
            ++ [(resolve_numbering_conflict I st c e).2] := by
          rw [← addE_conflict_list I st hid hno hc]
          exact ha
        obtain ⟨l₁, l₂, hsplit, hl₁, hcpred⟩ :=
          find?_decomp (p := fun el =>
            decide (I.no el = I.no e ∧ I.grp el = I.grp e)) hc
        have hmemc : c ∈ st._list := by rw [hsplit]; simp
        by_cases hstrict : I.strict c = true
        · rw [resolve_strict_list I st hstrict,
            resolve_strict_ret I st hstrict] at ha'
          rcases List.mem_append.1 ha' with h | h
          · exact hst a h
          · rw [List.mem_singleton] at h
            subst h
            exact hP e _ he
        · have hstrict' : I.strict c = false := by
            cases hsc : I.strict c
            · rfl
            · exact absurd hsc hstrict
          rw [resolve_nonstrict_list I st hstrict',
            resolve_nonstrict_ret I st hstrict'] at ha'
          rw [hsplit, replaceFirst_decomp hl₁ hcpred] at ha'
          rcases List.mem_append.1 ha' with h | h
          · rcases List.mem_append.1 h with h1 | h2
            · exact hst a (by rw [hsplit]; simp [h1])
            · rcases List.mem_cons.1 h2 with rfl | h3
              · exact hP c _ (hst c hmemc)
              · exact hst a (by rw [hsplit]; simp [h3])
          · rw [List.mem_singleton] at h
            subst h
            exact he

/-- Boolean helpers, proved by enumeration. -/
theorem bor_elim_left : ∀ x y : Bool, (x || y) = false → x = false := by
  decide

/-- Boolean helper: a true disjunction with a false right side has a true
left side. -/
theorem bor_elim_true : ∀ x y : Bool, (x || y) = true → y = false →
    x = true := by
  decide

/-- A run of unassigned-number, never-deduplicated registrations hands out
exactly the ascending free numbers of the group: each assigned number is
positive and was free, they strictly increase, and every number skipped
below or between them was already taken at the start. -/
theorem seq_aux {α : Type} (I : ElemIntf α) (hG : GoodIntf I) (g : Int) :
    ∀ (es : List α) (st : EList α),
      (∀ e ∈ es, I.no e = -1 ∧ I.grp e = g) →
      NoDupRun I st es →
      SeqSpec I st g (((addRun I st es).2).map I.no) := by
  intro es
  induction es with
  | nil =>
    intro st _ _
    exact ⟨List.chain'_nil, by simp [addRun], by simp [addRun],
      by simp [addRun]⟩
  | cons e rest ih =>
    intro st hall hnd
    obtain ⟨hid, hnd'⟩ := hnd
    obtain ⟨hnoe, hgrpe⟩ := hall e (by simp)
    have hall' : ∀ x ∈ rest, I.no x = -1 ∧ I.grp x = g :=
      fun x hx => hall x (by simp [hx])
    have ihs := ih (addE I st e).1 hall' hnd'
    have hret : (addE I st e).2 =
        I.setNo e (get_available_number I st (I.grp e)) := by
      rw [addE_unassigned I st hid hnoe]
      rfl
    have hnum : I.no (addE I st e).2 = get_available_number I st g := by
      rw [hret, hG.2.1, hgrpe]
    obtain ⟨hpos, hfree, hbelow⟩ := get_available_number_spec I st g
    set a0 := get_available_number I st g with ha0
    have htrans : ∀ m g', is_taken_number I (addE I st e).1 m g' =
        (is_taken_number I st m g' || decide (m = a0 ∧ g' = g)) := by
      intro m g'
      rw [is_taken_after_unassigned_add I hG st e hid hnoe m g', hgrpe]
    have hshape : ((addRun I st (e :: rest)).2).map I.no
        = a0 :: ((addRun I (addE I st e).1 rest).2).map I.no := by
      show ((addE I st e).2 :: (addRun I (addE I st e).1 rest).2).map I.no = _
      rw [List.map_cons, hnum]
    obtain ⟨ich, ielem, ihead, igap⟩ := ihs
    set nos' := ((addRun I (addE I st e).1 rest).2).map I.no with hnos'
    rw [hshape]
    have ha0taken1 : is_taken_number I (addE I st e).1 a0 g = true := by
      rw [htrans]
      simp
    have hxinfo : ∀ x ∈ nos',
        1 ≤ x ∧ is_taken_number I st x g = false ∧ a0 < x := by
      intro x hx
      obtain ⟨hx1, hxfree1⟩ := ielem x hx
      have hxne : x ≠ a0 := by
        intro hxa
        rw [hxa, ha0taken1] at hxfree1
        exact Bool.noConfusion hxfree1
      have hxfree : is_taken_number I st x g = false := by
        have h2 := hxfree1
        rw [htrans] at h2
        exact bor_elim_left _ _ h2
      refine ⟨hx1, hxfree, ?_⟩
      by_contra hnot
      push_neg at hnot
      have hxlt : x < a0 := lt_of_le_of_ne hnot hxne
      have htk := hbelow x hx1 hxlt
      rw [htk] at hxfree
      exact Bool.noConfusion hxfree
    refine ⟨?_, ?_, ?_, ?_⟩
    · -- strictly increasing
      rw [List.chain'_cons']
      refine ⟨?_, ich⟩
      intro b hb
      exact (hxinfo b (List.mem_of_mem_head? hb)).2.2
    · -- each assigned number positive and free at the start
      intro x hx
      rcases List.mem_cons.1 hx with rfl | hx'
      · exact ⟨hpos, hfree⟩
      · exact ⟨(hxinfo x hx').1, (hxinfo x hx').2.1⟩
    · -- nothing skipped below the first assigned number
      intro m hm _ hlt
      exact hbelow m hm hlt
    · -- nothing skipped between consecutive assigned numbers
      intro i m hi hlo hhi
      cases i with
      | zero =>
        have hlen : 0 < nos'.length := by
          simp only [List.length_cons] at hi
          omega
        have hm1 : 1 ≤ m := by
          have : a0 < m := by simpa using hlo
          omega
        have hmhi : m < nos'.getD 0 0 := by
          simpa using hhi
        have htk1 := ihead m hm1 hlen hmhi
        rw [htrans] at htk1
        refine bor_elim_true _ _ htk1 ?_
        refine decide_eq_false ?_
        rintro ⟨hma, -⟩
        have : a0 < m := by simpa using hlo
        omega
      | succ j =>
        have hi' : j + 1 < nos'.length := by
          simp only [List.length_cons] at hi
          omega
        have hlo' : nos'.getD j 0 < m := by
          simpa [List.getD_cons_succ] using hlo
        have hhi' : m < nos'.getD (j + 1) 0 := by
          simpa [List.getD_cons_succ] using hhi
        have htk1 := igap j m hi' hlo' hhi'
        rw [htrans] at htk1
        refine bor_elim_true _ _ htk1 ?_
        refine decide_eq_false ?_
        rintro ⟨hma, -⟩
        have hmem : nos'.getD j 0 ∈ nos' := getD_mem_int nos' j (by omega)
        have := (hxinfo _ hmem).2.2
        omega

/-- Unfolding step for the node-branch fold. -/
theorem addNodeObjects_cons (layer : GiraffeLayer) (obj : RawObject)
    (rest : List RawObject) (st : EList NodeE) (fresh : Nat) :
    addNodeObjects layer (obj :: rest) st fresh =
      if obj.objType = 1 then
        addNodeObjects layer rest
          (addE nodeIntf st
            { mkNodeFromObj fresh obj.label obj.point with
                layer := some layer }).1 (fresh + 1)
      else addNodeObjects layer rest st fresh := by
  by_cases ht : obj.objType = 1
  · simp [addNodeObjects, ht]
  · simp [addNodeObjects, ht]

/-- Unfolding step for the line-branch fold. -/
theorem addLineObjects_cons (layer : GiraffeLayer) (typ : String)
    (obj : RawObject) (rest : List RawObject) (nst : EList NodeE)
    (bst : EList LineE) (fresh : Nat) :
    addLineObjects layer typ (obj :: rest) nst bst fresh =
      if obj.objType = 4 then
        addLineObjects layer typ rest
          (addE nodeIntf
            (addE nodeIntf nst (mkNodeFromCoords fresh obj.curveStart)).1
            (mkNodeFromCoords (fresh + 1) obj.curveEnd)).1
          (addE lineIntf bst
            { mkLineFromObj typ obj.label with
                layer := some layer,
                n1 := some (addE nodeIntf nst
                  (mkNodeFromCoords fresh obj.curveStart)).2.pyId,
                n2 := some (addE nodeIntf
                  (addE nodeIntf nst
                    (mkNodeFromCoords fresh obj.curveStart)).1
                  (mkNodeFromCoords (fresh + 1) obj.curveEnd)).2.pyId }).1
          (fresh + 2)
      else addLineObjects layer typ rest nst bst fresh := by
  by_cases ht : obj.objType = 4
  · simp [addLineObjects, ht]
  · simp [addLineObjects, ht]

/-- Every node stored after the node-branch fold keeps the default group
`-1`, provided the registry started that way (ingestion never passes a
group). -/
theorem addNodeObjects_all (layer : GiraffeLayer) :
    ∀ (objects : List RawObject) (st : EList NodeE) (fresh : Nat),
      (∀ n ∈ st._list, n.grp = -1) →
      ∀ n ∈ (addNodeObjects layer objects st fresh).1._list, n.grp = -1 := by
  intro objects
  induction objects with
  | nil =>
    intro st fresh h
    exact h
  | cons obj rest ih =>
    intro st fresh h
    rw [addNodeObjects_cons]
    by_cases ht : obj.objType = 1
    · rw [if_pos ht]
      refine ih _ _ ?_
      exact addE_all nodeIntf (fun n => n.grp = -1) (fun a n ha => ha)
        st _ h rfl
    · rw [if_neg ht]
      exact ih st fresh h

/-- Every node and every line element stored after the line-branch fold
keeps the default group `-1`. -/
theorem addLineObjects_all (layer : GiraffeLayer) (typ : String) :
    ∀ (objects : List RawObject) (nst : EList NodeE) (bst : EList LineE)
      (fresh : Nat),
      (∀ n ∈ nst._list, n.grp = -1) →
      (∀ b ∈ bst._list, b.grp = -1) →
      (∀ n ∈ (addLineObjects layer typ objects nst bst fresh).1.1._list,
          n.grp = -1) ∧
      (∀ b ∈ (addLineObjects layer typ objects nst bst fresh).1.2._list,
          b.grp = -1) := by
  intro objects
  induction objects with
  | nil =>
    intro nst bst fresh hn hb
    exact ⟨hn, hb⟩
  | cons obj rest ih =>
    intro nst bst fresh hn hb
    rw [addLineObjects_cons]
    by_cases ht : obj.objType = 4
    · rw [if_pos ht]
      have hn1 := addE_all nodeIntf (fun n => n.grp = -1)
        (fun a n ha => ha) nst (mkNodeFromCoords fresh obj.curveStart) hn rfl
      have hn2 := addE_all nodeIntf (fun n => n.grp = -1)
        (fun a n ha => ha) _ (mkNodeFromCoords (fresh + 1) obj.curveEnd)
        hn1 rfl
      have hb1 := addE_all lineIntf (fun b => b.grp = -1)
        (fun a n ha => ha) bst
        { mkLineFromObj typ obj.label with
            layer := some layer,
            n1 := some (addE nodeIntf nst
              (mkNodeFromCoords fresh obj.curveStart)).2.pyId,
            n2 := some (addE nodeIntf
              (addE nodeIntf nst
                (mkNodeFromCoords fresh obj.curveStart)).1
              (mkNodeFromCoords (fresh + 1) obj.curveEnd)).2.pyId }
        hb rfl
      exact ih _ _ _ hn2 hb1
    · rw [if_neg ht]
      exact ih nst bst fresh hn hb

/-- Node distance is symmetric. -/
theorem distSqTo_comm (a b : NodeE) : a.distSqTo b = b.distSqTo a := by
  unfold NodeE.distSqTo
  ring

/-- The node interface satisfies the structural facts: `setNo` only writes
the number, and spatial identity is symmetric and number-blind. -/
theorem goodNode : GoodIntf nodeIntf := by
  refine ⟨?_, ?_, ?_, ?_, ?_⟩
  · intro a b
    show NodeE.identical_to a b = NodeE.identical_to b a
    unfold NodeE.identical_to
    rw [distSqTo_comm]
  · intro a n; rfl
  · intro a n; rfl
  · intro a b n; rfl
  · intro a b n; rfl

/-- The line-element interface satisfies the structural facts: `setNo` only
writes the number, and endpoint identity is symmetric and number-blind. -/
theorem goodLine : GoodIntf lineIntf := by
  refine ⟨?_, ?_, ?_, ?_, ?_⟩
  · intro a b
    show LineE.identical_to a b = LineE.identical_to b a
    unfold LineE.identical_to
    rw [decide_eq_decide]
    constructor
    · rintro ⟨h1, h2⟩; exact ⟨h1.symm, h2.symm⟩
    · rintro ⟨h1, h2⟩; exact ⟨h1.symm, h2.symm⟩
  · intro a n; rfl
  · intro a n; rfl
  · intro a b n; rfl
  · intro a b n; rfl

/-!  Equivalence of the streaming export loop with the claim's
description of marker emission (claim C10). -/

/-- The marker the source loop emits for one element equals `specMarker`. -/
theorem marker_eq (dec : String → RhinoTriple) (prev : LayerSlot)
    (sprev : Option (Option GiraffeLayer)) (hrel : slotRel prev sprev)
    (lay : Option GiraffeLayer) :
    (if (slotOf lay).truthy ∧ ¬ (prev.pyEq (slotOf lay)) then
      (match lay with
        | some gl => gl.exportStr dec
        | none => some "")
      else some "") = specMarker dec sprev lay := by
  cases lay with
  | none => simp [slotOf, LayerSlot.truthy, specMarker]
  | some gl =>
    cases prev with
    | sentinel =>
      cases sprev with
      | none => simp [slotOf, LayerSlot.truthy, LayerSlot.pyEq, specMarker]
      | some s => exact False.elim hrel
    | noneL =>
      cases sprev with
      | none => exact False.elim hrel
      | some s =>
        cases s with
        | none => simp [slotOf, LayerSlot.truthy, LayerSlot.pyEq, specMarker]
        | some p => exact False.elim hrel
    | layerL q =>
      cases sprev with
      | none => exact False.elim hrel
      | some s =>
        cases s with
        | none => exact False.elim hrel
        | some p =>
          have hqp : q = p := hrel
          subst hqp
          by_cases hid : q.pyId = gl.pyId
          · simp [slotOf, LayerSlot.truthy, LayerSlot.pyEq, specMarker, hid]
          · simp [slotOf, LayerSlot.truthy, LayerSlot.pyEq, specMarker, hid]

/-- `add` of an unassigned-number element returns the element carrying the
group's lowest free number. -/
theorem addE_unassigned_no {α : Type} (I : ElemIntf α) (hG : GoodIntf I)
    (st : EList α) (e : α) (hno : I.no e = -1)
    (hid : get_identical_to I st e = none) :
    I.no (addE I st e).2 = get_available_number I st (I.grp e) := by
  have h2 : (addE I st e).2 = add_number I st e := by
    rw [addE_unassigned I st hid hno]
  rw [h2, add_number, hG.2.1]

/-- The source export loop agrees with the claim-shaped one whenever the
threaded previous-marker states correspond. -/
theorem exportLoop_eq_spec {α : Type} (I : ElemIntf α) (exLine : α → String)
    (dec : String → RhinoTriple) :
    ∀ (l : List α) (prev : LayerSlot) (sprev : Option (Option GiraffeLayer)),
      slotRel prev sprev →
      exportLoop I exLine dec prev l = specExportLoop I exLine dec sprev l := by
  intro l
  induction l with
  | nil => intro prev sprev _; rfl
  | cons item rest ih =>
    intro prev sprev hrel
    have hnext : slotRel (slotOf (I.layerOf item)) (some (I.layerOf item)) := by
      cases I.layerOf item with
      | none => trivial
      | some gl => exact rfl
    have hmk := marker_eq dec prev sprev hrel (I.layerOf item)
    unfold exportLoop specExportLoop
    dsimp only
    rw [hmk, ih (slotOf (I.layerOf item)) (some (I.layerOf item)) hnext]

/-!  Concrete evaluations (rational arithmetic is evaluated by `norm_num`;
the kernel cannot reduce `Rat` normalisation). -/

/-- The far-away strictly numbered node is not spatially identical to the
stored origin node. -/
theorem identOne_nStrict : get_identical_to nodeIntf stOne nStrict1 = none := by
  norm_num [get_identical_to, stOne, addE, mkEList, List.find?, add_number,
    get_available_number, availAux, is_taken_number, nodeIntf, nOrigin,
    nStrict1, mkNodeFromCoords, mkNodeFromObj, NodeE.identical_to,
    NodeE.distSqTo, round5, tolerance]

/-- Both nearby nodes are spatially identical to the origin node. -/
theorem nsNear_ident :
    ∀ m ∈ nsNearOrigin, NodeE.identical_to m nOrigin = true := by
  intro m hm
  rcases List.mem_cons.1 hm with rfl | hm'
  · norm_num [nsNearOrigin, nOrigin, mkNodeFromCoords, NodeE.identical_to,
      NodeE.distSqTo, round5, tolerance]
  · rcases List.mem_cons.1 hm' with rfl | hm''
    · norm_num [nsNearOrigin, nOrigin, mkNodeFromCoords, NodeE.identical_to,
        NodeE.distSqTo, round5, tolerance]
    · exact absurd hm'' (List.not_mem_nil m)

/-- No registration in the `esAnon` run against `stReserved` is
deduplicated. -/
theorem esAnon_nodup : NoDupRun nodeIntf stReserved esAnon := by
  refine ⟨?_, ?_, ?_, trivial⟩
  · norm_num [get_identical_to, addE, mkEList, List.find?, add_number,
      get_available_number, availAux, is_taken_number,
      get_conflicting_element, nodeIntf, stReserved, nStrict2, esAnon,
      mkNodeFromCoords, mkNodeFromObj, NodeE.identical_to, NodeE.distSqTo,
      round5, tolerance]
  · norm_num [get_identical_to, addE, mkEList, List.find?, add_number,
      get_available_number, availAux, is_taken_number,
      get_conflicting_element, nodeIntf, stReserved, nStrict2, esAnon,
      mkNodeFromCoords, mkNodeFromObj, NodeE.identical_to, NodeE.distSqTo,
      round5, tolerance]
  · norm_num [get_identical_to, addE, mkEList, List.find?, add_number,
      get_available_number, availAux, is_taken_number,
      get_conflicting_element, nodeIntf, stReserved, nStrict2, esAnon,
      mkNodeFromCoords, mkNodeFromObj, NodeE.identical_to, NodeE.distSqTo,
      round5, tolerance]

/-- The numbers the `esAnon` run receives: 1, then 3 (2 is reserved),
then 4. -/
theorem esAnon_numbers :
    ((addRun nodeIntf stReserved esAnon).2).map nodeIntf.no = [1, 3, 4] := by
  norm_num [addRun, get_identical_to, addE, mkEList, List.find?, add_number,
    get_available_number, availAux, is_taken_number, get_conflicting_element,
    nodeIntf, stReserved, nStrict2, esAnon, mkNodeFromCoords, mkNodeFromObj,
    NodeE.identical_to, NodeE.distSqTo, round5, tolerance]

/-- The numbers in `esAnon` are all unassigned and ungrouped. -/
theorem esAnon_unassigned :
    ∀ e ∈ esAnon, nodeIntf.no e = -1 ∧ nodeIntf.grp e = -1 := by
  decide

/-- The line-branch fold on an empty object list changes nothing. -/
theorem addLineObjects_nil (layer : GiraffeLayer) (typ : String)
    (nst : EList NodeE) (bst : EList LineE) (fresh : Nat) :
    addLineObjects layer typ [] nst bst fresh = ((nst, bst), fresh) := rfl

/-- Evaluated `plural_to_sofi` lookups. -/
theorem lookupSofi_nodes : lookupSofi "nodes" = some "node" := rfl

/-- Evaluated lookup for cables. -/
theorem lookupSofi_cables : lookupSofi "cables" = some "cabl" := rfl

/-- Evaluated lookup for trusses. -/
theorem lookupSofi_trusses : lookupSofi "trusses" = some "trus" := rfl

/-- The layer fixtures, with their `__init__`-computed paths evaluated. -/
theorem layerCables_val : layerCables =
    { pyId := 13, name := "input::cables::c",
      path := ["input", "cables", "c"], depth := 3, last := "c",
      geometry := [cvObj { x := 0, y := 0, z := 0 }
        { x := 10, y := 0, z := 0 }] } := rfl

/-- The trusses layer fixture, path evaluated. -/
theorem layerTrusses_val : layerTrusses =
    { pyId := 14, name := "input::trusses::t",
      path := ["input", "trusses", "t"], depth := 3, last := "t",
      geometry := [cvObj { x := 0, y := 0, z := 100 }
        { x := 10, y := 0, z := 100 }] } := rfl

/-- The group-5 nodes layer fixture, path evaluated. -/
theorem layerGrp5_val : layerGrp5 =
    { pyId := 15, name := "input::nodes::5 g5",
      path := ["input", "nodes", "5 g5"], depth := 3, last := "5 g5",
      geometry := [ptObj { x := 0, y := 0, z := 0 }] } := rfl

/-- The group-7 nodes layer fixture, path evaluated. -/
theorem layerGrp7_val : layerGrp7 =
    { pyId := 18, name := "input::nodes::7 g7",
      path := ["input", "nodes", "7 g7"], depth := 3, last := "7 g7",
      geometry := [ptObj { x := 0, y := 0, z := 50 }] } := rfl

/-- Ingesting the cables layer into the fresh model yields `mCab`. -/
theorem cables_step :
    add_objects_from_layer m0 layerCables 0 = Except.ok (mCab, 2) := by
  unfold add_objects_from_layer
  rw [if_pos (by decide :
    layerCables.depth > 1 ∧ layerCables.path.getD 0 "" = "input")]
  dsimp only
  rw [show lookupSofi (layerCables.path.getD 1 "") = some "cabl" from rfl]
  dsimp only
  rw [if_neg (by decide : ¬ layerCables.path.getD 1 "" = "nodes"),
    if_pos (by decide : layerCables.path.getD 1 "" ∈ line_elements)]
  norm_num [mCab, nodesCab, beamsCab, anonNode, anonLine, m0,
    addLineObjects_cons, addLineObjects_nil, addE,
    get_identical_to, get_conflicting_element, resolve_numbering_conflict,
    add_number, get_available_number, availAux, is_taken_number,
    replaceFirst, mkEList, List.find?, nodeIntf, lineIntf,
    NodeE.identical_to, NodeE.distSqTo, LineE.identical_to,
    mkNodeFromCoords, mkNodeFromObj, mkLineFromObj, round5, tolerance,
    layerCables_val, cvObj]

/-- Ingesting the trusses layer into `mCab` yields `mCabTrus`: the truss
element is appended to the same shared `beams` registry. -/
theorem trusses_step :
    add_objects_from_layer mCab layerTrusses 2 = Except.ok (mCabTrus, 4) := by
  unfold add_objects_from_layer
  rw [if_pos (by decide :
    layerTrusses.depth > 1 ∧ layerTrusses.path.getD 0 "" = "input")]
  dsimp only
  rw [show lookupSofi (layerTrusses.path.getD 1 "") = some "trus" from rfl]
  dsimp only
  rw [if_neg (by decide : ¬ layerTrusses.path.getD 1 "" = "nodes"),
    if_pos (by decide : layerTrusses.path.getD 1 "" ∈ line_elements)]
  norm_num [mCab, mCabTrus, nodesCab, beamsCab, nodesCabTrus, beamsCabTrus,
    anonNode, anonLine, m0, addLineObjects_cons, addLineObjects_nil,
    addE, get_identical_to, get_conflicting_element,
    resolve_numbering_conflict, add_number, get_available_number, availAux,
    is_taken_number, replaceFirst, mkEList, List.find?, nodeIntf, lineIntf,
    NodeE.identical_to, NodeE.distSqTo, LineE.identical_to,
    mkNodeFromCoords, mkNodeFromObj, mkLineFromObj, round5, tolerance,
    layerTrusses_val, cvObj]

/-!  The claims. -/

/-- C1, counterexample: inserting a strictly numbered node whose
`(number, group)` collides with a stored non-strict node renumbers the
stored node and keeps the new node's number, but records NO warning — the
claim's first branch asserts one warning is recorded. -/
theorem claim1_counterexample :
    get_identical_to nodeIntf stOne nStrict1 = none ∧
    get_conflicting_element nodeIntf stOne nStrict1 = some nOriginStored ∧
    nOriginStored.strict_naming = false ∧
    (addE nodeIntf stOne nStrict1).1._errors.length = 0 ∧
    (addE nodeIntf stOne nStrict1).1._list.map
      (fun x => (x.no, x.strict_naming)) = [(2, false), (1, true)] := by
  have hno : ¬ nodeIntf.no nStrict1 = -1 := by decide
  have hc : get_conflicting_element nodeIntf stOne nStrict1
      = some nOriginStored := rfl
  have hs : nodeIntf.strict nOriginStored = false := rfl
  refine ⟨identOne_nStrict, hc, rfl, ?_, ?_⟩
  · rw [addE_conflict_errors nodeIntf stOne identOne_nStrict hno hc,
      resolve_nonstrict_errors nodeIntf stOne hs]
    rfl
  · rw [addE_conflict_list nodeIntf stOne identOne_nStrict hno hc,
      resolve_nonstrict_list nodeIntf stOne hs,
      resolve_nonstrict_ret nodeIntf stOne hs]
    rfl

/-- C1 (amended): on a `(number, group)` collision between a new explicitly
numbered element and a stored one, if the stored element is not strictly
named it is renumbered in place to the lowest free number of its group
SILENTLY (no warning) while the new element keeps its requested number; if
the stored element is strictly named, the new element is renumbered to the
lowest free number of its group, the stored element keeps its number, and
exactly one warning recording the change is appended. -/
theorem claim1_conflict_resolution {α : Type} (I : ElemIntf α)
    (hG : GoodIntf I) (st : EList α) (e c : α)
    (hid : get_identical_to I st e = none) (hno : ¬ I.no e = -1)
    (hc : get_conflicting_element I st e = some c) :
    (I.strict c = false →
      (addE I st e).2 = e ∧
      (addE I st e).1._errors = st._errors ∧
      (addE I st e).1._list =
        replaceFirst
          (fun el => decide (I.no el = I.no e ∧ I.grp el = I.grp e))
          (I.setNo c (get_available_number I st (I.grp c))) st._list
          ++ [e] ∧
      1 ≤ get_available_number I st (I.grp c) ∧
      is_taken_number I st (get_available_number I st (I.grp c)) (I.grp c)
        = false ∧
      (∀ m, 1 ≤ m → m < get_available_number I st (I.grp c) →
        is_taken_number I st m (I.grp c) = true)) ∧
    (I.strict c = true →
      (addE I st e).2 = I.setNo e (get_available_number I st (I.grp e)) ∧
      (addE I st e).1._errors = st._errors ++
        ["Numbering conflict, node number " ++ toString (I.no c)
          ++ " changed to "
          ++ toString (get_available_number I st (I.grp e)) ++ "."] ∧
      (addE I st e).1._list = st._list
        ++ [I.setNo e (get_available_number I st (I.grp e))] ∧
      1 ≤ get_available_number I st (I.grp e) ∧
      is_taken_number I st (get_available_number I st (I.grp e)) (I.grp e)
        = false ∧
      (∀ m, 1 ≤ m → m < get_available_number I st (I.grp e) →
        is_taken_number I st m (I.grp e) = true)) := by
  constructor
  · intro hstrict
    refine ⟨?_, ?_, ?_, (get_available_number_spec I st (I.grp c)).1,
      (get_available_number_spec I st (I.grp c)).2.1,
      (get_available_number_spec I st (I.grp c)).2.2⟩
    · rw [addE_conflict_ret I st hid hno hc,
        resolve_nonstrict_ret I st hstrict]
    · rw [addE_conflict_errors I st hid hno hc,
        resolve_nonstrict_errors I st hstrict]
    · rw [addE_conflict_list I st hid hno hc,
        resolve_nonstrict_list I st hstrict,
        resolve_nonstrict_ret I st hstrict]
      rfl
  · intro hstrict
    refine ⟨?_, ?_, ?_, (get_available_number_spec I st (I.grp e)).1,
      (get_available_number_spec I st (I.grp e)).2.1,
      (get_available_number_spec I st (I.grp e)).2.2⟩
    · rw [addE_conflict_ret I st hid hno hc,
        resolve_strict_ret I st hstrict]
      rfl
    · rw [addE_conflict_errors I st hid hno hc,
        resolve_strict_errors I st hstrict]
      rw [show I.no (add_number I st e) = get_available_number I st (I.grp e)
        from hG.2.1 e _]
    · rw [addE_conflict_list I st hid hno hc,
        resolve_strict_list I st hstrict,
        resolve_strict_ret I st hstrict]
      rfl

/-- C1, witness: the amended statement applied to the concrete collision of
`claim1_counterexample`. -/
theorem claim1_witness :
    (get_identical_to nodeIntf stOne nStrict1 = none ∧
      ¬ nodeIntf.no nStrict1 = -1 ∧
      get_conflicting_element nodeIntf stOne nStrict1 = some nOriginStored) ∧
    ((nodeIntf.strict nOriginStored = false →
      (addE nodeIntf stOne nStrict1).2 = nStrict1 ∧
      (addE nodeIntf stOne nStrict1).1._errors = stOne._errors ∧
      (addE nodeIntf stOne nStrict1).1._list =
        replaceFirst
          (fun el => decide (nodeIntf.no el = nodeIntf.no nStrict1
            ∧ nodeIntf.grp el = nodeIntf.grp nStrict1))
          (nodeIntf.setNo nOriginStored
            (get_available_number nodeIntf stOne
              (nodeIntf.grp nOriginStored))) stOne._list
          ++ [nStrict1] ∧
      1 ≤ get_available_number nodeIntf stOne (nodeIntf.grp nOriginStored) ∧
      is_taken_number nodeIntf stOne
        (get_available_number nodeIntf stOne (nodeIntf.grp nOriginStored))
        (nodeIntf.grp nOriginStored) = false ∧
      (∀ m, 1 ≤ m →
        m < get_available_number nodeIntf stOne (nodeIntf.grp nOriginStored) →
        is_taken_number nodeIntf stOne m (nodeIntf.grp nOriginStored)
          = true)) ∧
    (nodeIntf.strict nOriginStored = true →
      (addE nodeIntf stOne nStrict1).2 = nodeIntf.setNo nStrict1
        (get_available_number nodeIntf stOne (nodeIntf.grp nStrict1)) ∧
      (addE nodeIntf stOne nStrict1).1._errors = stOne._errors ++
        ["Numbering conflict, node number "
          ++ toString (nodeIntf.no nOriginStored) ++ " changed to "
          ++ toString (get_available_number nodeIntf stOne
            (nodeIntf.grp nStrict1)) ++ "."] ∧
      (addE nodeIntf stOne nStrict1).1._list = stOne._list
        ++ [nodeIntf.setNo nStrict1
          (get_available_number nodeIntf stOne (nodeIntf.grp nStrict1))] ∧
      1 ≤ get_available_number nodeIntf stOne (nodeIntf.grp nStrict1) ∧
      is_taken_number nodeIntf stOne
        (get_available_number nodeIntf stOne (nodeIntf.grp nStrict1))
        (nodeIntf.grp nStrict1) = false ∧
      (∀ m, 1 ≤ m →
        m < get_available_number nodeIntf stOne (nodeIntf.grp nStrict1) →
        is_taken_number nodeIntf stOne m (nodeIntf.grp nStrict1) = true))) :=
  ⟨⟨identOne_nStrict, by decide, rfl⟩,
    claim1_conflict_resolution nodeIntf goodNode stOne nStrict1 nOriginStored
      identOne_nStrict (by decide) rfl⟩

/-- C2, counterexample: an input-marked provenance unit with an unrecognized
type tag is NOT skipped silently — the unconditional `plural_to_sofi` lookup
raises `KeyError` (the claim asserts ingestion returns without raising any
error). -/
theorem claim2_counterexample :
    StructuralModel.initState 4 "structure" = some m0 ∧
    layerWalls.depth > 1 ∧
    layerWalls.path.getD 0 "" = "input" ∧
    lookupSofi (layerWalls.path.getD 1 "") = none ∧
    add_objects_from_layer m0 layerWalls 0 = Except.error PyError.keyError :=
  ⟨rfl, by decide, rfl, rfl, rfl⟩

/-- C2 (amended): ingestion of a unit not marked as model input returns the
model unchanged without error; an input-marked unit with a RECOGNIZED tag
that is neither nodes nor a line-element type is likewise a silent no-op;
but an input-marked unit with an unrecognized tag raises `KeyError`. -/
theorem claim2_skip_semantics (m : StructuralModel) (layer : GiraffeLayer)
    (fresh : Nat) :
    (¬ (layer.depth > 1 ∧ layer.path.getD 0 "" = "input") →
      add_objects_from_layer m layer fresh = Except.ok (m, fresh)) ∧
    ((layer.depth > 1 ∧ layer.path.getD 0 "" = "input") →
      lookupSofi (layer.path.getD 1 "") = none →
      add_objects_from_layer m layer fresh = Except.error PyError.keyError) ∧
    (∀ t : String, (layer.depth > 1 ∧ layer.path.getD 0 "" = "input") →
      lookupSofi (layer.path.getD 1 "") = some t →
      ¬ layer.path.getD 1 "" = "nodes" →
      ¬ layer.path.getD 1 "" ∈ line_elements →
      add_objects_from_layer m layer fresh = Except.ok (m, fresh)) := by
  refine ⟨?_, ?_, ?_⟩
  · intro h
    unfold add_objects_from_layer
    rw [if_neg h]
  · intro h hk
    unfold add_objects_from_layer
    rw [if_pos h]
    dsimp only
    rw [hk]
  · intro t h hk h1 h2
    unfold add_objects_from_layer
    rw [if_pos h]
    dsimp only
    rw [hk]
    dsimp only
    rw [if_neg h1, if_neg h2]

/-- C2, witness: the amended statement applied to an input springs layer —
a recognized tag that is neither nodes nor a line element — which is a
silent no-op. -/
theorem claim2_witness :
    (layerSprings.depth > 1 ∧ layerSprings.path.getD 0 "" = "input") ∧
    lookupSofi (layerSprings.path.getD 1 "") = some "spri" ∧
    ¬ layerSprings.path.getD 1 "" = "nodes" ∧
    ¬ layerSprings.path.getD 1 "" ∈ line_elements ∧
    add_objects_from_layer m0 layerSprings 0 = Except.ok (m0, 0) :=
  ⟨by decide, by decide, by decide, by decide,
    (claim2_skip_semantics m0 layerSprings 0).2.2 "spri" (by decide)
      (by decide) (by decide) (by decide)⟩

/-- C3: both `__init__` methods end in `return self`, so every Python-level
construction of a `GiraffeLayer` raises `TypeError`, every construction of
a `StructuralModel` raises `TypeError` whenever the unit-system lookup
succeeds, and the full ingest-and-export pipeline (`Main`) always fails
before any registration occurs. -/
theorem claim3_constructor_type_error :
    (∀ (pid : Nat) (nm : String) (geo : List RawObject),
      GiraffeLayer.new pid nm geo = Except.error PyError.typeError) ∧
    (∀ (us : Int) (nm : String), (unit_conversion us).isSome →
      StructuralModel.new us nm = Except.error PyError.typeError) ∧
    (∀ (us : Int) (dec : String → RhinoTriple)
      (names : List (String × List RawObject)),
      ∃ err : PyError, Main us dec names = Except.error err) := by
  refine ⟨?_, ?_, ?_⟩
  · intro pid nm geo
    rfl
  · intro us nm h
    cases hcv : unit_conversion us with
    | none => rw [hcv] at h; simp at h
    | some cf =>
      unfold StructuralModel.new StructuralModel.initState
      rw [hcv]
      rfl
  · intro us dec names
    cases hcv : unit_conversion us with
    | none =>
      refine ⟨PyError.keyError, ?_⟩
      unfold Main StructuralModel.new StructuralModel.initState
      rw [hcv]
    | some cf =>
      refine ⟨PyError.typeError, ?_⟩
      unfold Main StructuralModel.new StructuralModel.initState
      rw [hcv]
      rfl

/-- C3, witness: the constructor failures at concrete inputs. -/
theorem claim3_witness :
    (unit_conversion 4).isSome = true ∧
    GiraffeLayer.new 0 "input::nodes" [] = Except.error PyError.typeError ∧
    StructuralModel.new 4 "structure" = Except.error PyError.typeError ∧
    ∃ err : PyError,
      Main 4 decTrivial [("input::nodes", [])] = Except.error err :=
  ⟨by decide,
    claim3_constructor_type_error.1 0 "input::nodes" [],
    claim3_constructor_type_error.2.1 4 "structure" (by decide),
    claim3_constructor_type_error.2.2 4 decTrivial [("input::nodes", [])]⟩

set_option maxHeartbeats 1600000 in
/-- C4, counterexample: a cable and a truss land in the SAME registry
(`beams`), in insertion order — there is no separate registry per
line-element type and no per-type fixed export order. -/
theorem claim4_counterexample :
    ((add_objects_from_layer m0 layerCables 0).bind
      (fun a => add_objects_from_layer a.1 layerTrusses a.2)).map
        (fun p => p.1.beams._list.map (fun e => e.typ))
      = Except.ok ["cabl", "trus"] ∧
    ((add_objects_from_layer m0 layerCables 0).bind
      (fun a => add_objects_from_layer a.1 layerTrusses a.2)).map
        (fun p => p.1.beams._list.length) = Except.ok 2 := by
  constructor
  · rw [cables_step]
    show (add_objects_from_layer mCab layerTrusses 2).map
      (fun p => p.1.beams._list.map (fun e => e.typ))
      = Except.ok ["cabl", "trus"]
    rw [trusses_step]
    rfl
  · rw [cables_step]
    show (add_objects_from_layer mCab layerTrusses 2).map
      (fun p => p.1.beams._list.length) = Except.ok 2
    rw [trusses_step]
    rfl

/-- C4 (amended): the structural model owns one Node registry and ONE
shared Line-Element registry used by beams, trusses and cables alike; the
full export concatenates header, then the Node registry export, then that
single shared registry's export, then the footer. -/
theorem claim4_two_registries (dec : String → RhinoTriple)
    (m : StructuralModel) (layer : GiraffeLayer) (fresh : Nat) :
    (StructuralModel.exportStr dec m =
      (exportEList nodeIntf NodeE.exportLine dec m.nodes).bind
        (fun ns =>
          (exportEList lineIntf (LineE.exportLine (nodeNoEnv m)) dec
            m.beams).map
            (fun bs => m.output_header ++ ns ++ bs ++ m.output_footer))) ∧
    ((layer.depth > 1 ∧ layer.path.getD 0 "" = "input") →
      layer.path.getD 1 "" ∈ line_elements →
      ∃ ns bs fr, add_objects_from_layer m layer fresh =
        Except.ok ({ m with nodes := ns, beams := bs }, fr)) := by
  constructor
  · unfold StructuralModel.exportStr
    cases hn : exportEList nodeIntf NodeE.exportLine dec m.nodes with
    | none => rfl
    | some ns =>
      cases hb : exportEList lineIntf (LineE.exportLine (nodeNoEnv m)) dec
          m.beams with
      | none => rfl
      | some bs => rfl
  · intro h hmem
    unfold add_objects_from_layer
    rw [if_pos h]
    have hmem' : layer.path.getD 1 "" = "beams"
        ∨ layer.path.getD 1 "" = "trusses"
        ∨ layer.path.getD 1 "" = "cables" := by
      simpa [line_elements] using hmem
    rcases hmem' with hp | hp | hp <;>
      rw [hp] <;> exact ⟨_, _, _, rfl⟩

/-- C4, witness: the shared-registry clause applied to the concrete cables
layer. -/
theorem claim4_witness :
    (layerCables.depth > 1 ∧ layerCables.path.getD 0 "" = "input") ∧
    layerCables.path.getD 1 "" ∈ line_elements ∧
    (∃ ns bs fr, add_objects_from_layer m0 layerCables 0 =
      Except.ok ({ m0 with nodes := ns, beams := bs }, fr)) :=
  ⟨by decide, by decide,
    (claim4_two_registries decTrivial m0 layerCables 0).2 (by decide)
      (by decide)⟩

/-- C5, counterexample: two provenance units carrying group keys 5 and 7
are ingested, yet the stored entities keep the default group `-1` and draw
their numbers (1, then 2) from one shared sequence — entities do NOT carry
the unit's numbering-group key. -/
theorem claim5_counterexample :
    GiraffeLayer.get_grp decGrp layerGrp5 = 5 ∧
    GiraffeLayer.get_grp decGrp layerGrp7 = 7 ∧
    ((add_objects_from_layer m0 layerGrp5 0).bind
      (fun a => add_objects_from_layer a.1 layerGrp7 a.2)).map
        (fun p => p.1.nodes._list.map (fun n => (n.no, n.grp)))
      = Except.ok [(1, -1), (2, -1)] := by
  refine ⟨rfl, rfl, ?_⟩
  norm_num [add_objects_from_layer, addNodeObjects, addE, get_identical_to,
    get_conflicting_element, resolve_numbering_conflict, add_number,
    get_available_number, availAux, is_taken_number, replaceFirst, mkEList,
    List.find?, nodeIntf, NodeE.identical_to, NodeE.distSqTo,
    mkNodeFromCoords, mkNodeFromObj, round5, tolerance, m0, layerGrp5_val,
    layerGrp7_val, ptObj, lookupSofi_nodes, line_elements, Except.bind,
    Except.map]

/-- C5 (amended): ingestion never passes a provenance unit's group key to
the entities it builds — every entity constructed during ingestion keeps
the default group `-1`, so a registry whose entities all have group `-1`
still has only group `-1` entities after ingesting any unit. -/
theorem claim5_default_group (m : StructuralModel) (layer : GiraffeLayer)
    (fresh : Nat) (r : StructuralModel × Nat)
    (hn : ∀ n ∈ m.nodes._list, n.grp = -1)
    (hb : ∀ b ∈ m.beams._list, b.grp = -1)
    (hr : add_objects_from_layer m layer fresh = Except.ok r) :
    (∀ n ∈ r.1.nodes._list, n.grp = -1) ∧
    (∀ b ∈ r.1.beams._list, b.grp = -1) := by
  unfold add_objects_from_layer at hr
  by_cases h : layer.depth > 1 ∧ layer.path.getD 0 "" = "input"
  · rw [if_pos h] at hr
    dsimp only at hr
    cases hk : lookupSofi (layer.path.getD 1 "") with
    | none =>
      rw [hk] at hr
      exact absurd hr (by simp)
    | some t =>
      rw [hk] at hr
      dsimp only at hr
      by_cases h1 : layer.path.getD 1 "" = "nodes"
      · rw [if_pos h1] at hr
        have hr2 := Except.ok.inj hr
        subst hr2
        exact ⟨addNodeObjects_all layer layer.geometry m.nodes fresh hn, hb⟩
      · rw [if_neg h1] at hr
        by_cases h2 : layer.path.getD 1 "" ∈ line_elements
        · rw [if_pos h2] at hr
          have hr2 := Except.ok.inj hr
          subst hr2
          exact addLineObjects_all layer t layer.geometry m.nodes m.beams
            fresh hn hb
        · rw [if_neg h2] at hr
          have hr2 := Except.ok.inj hr
          subst hr2
          exact ⟨hn, hb⟩
  · rw [if_neg h] at hr
    have hr2 := Except.ok.inj hr
    subst hr2
    exact ⟨hn, hb⟩

/-- C5, witness: ingesting the concrete group-5 layer into the fresh model
keeps every stored node at group `-1`. -/
theorem claim5_witness :
    (∀ n ∈ m0.nodes._list, n.grp = -1) ∧
    (∀ n ∈ (({ m0 with nodes :=
        (addNodeObjects layerGrp5 layerGrp5.geometry m0.nodes 0).1 },
        (addNodeObjects layerGrp5 layerGrp5.geometry m0.nodes 0).2) :
        StructuralModel × Nat).1.nodes._list, n.grp = -1) :=
  ⟨by simp [m0, mkEList],
    (claim5_default_group m0 layerGrp5 0
      ({ m0 with nodes :=
          (addNodeObjects layerGrp5 layerGrp5.geometry m0.nodes 0).1 },
        (addNodeObjects layerGrp5 layerGrp5.geometry m0.nodes 0).2)
      (by simp [m0, mkEList]) (by simp [m0, mkEList]) rfl).1⟩

/-- C6: every registry reachable by any sequence of `add` calls satisfies
the invariant — no two distinct stored entities satisfy the kind's equality
predicate (in either direction) and no two share `(number, group)`. -/
theorem claim6_registry_invariant {α : Type} (I : ElemIntf α)
    (hG : GoodIntf I) (st : EList α) (h : Reach I st) : RegInv I st :=
  reach_inv I hG st h

/-- C6, witness: the invariant of a concrete reachable node registry. -/
theorem claim6_witness :
    RegInv nodeIntf
      (addE nodeIntf (addE nodeIntf (mkEList NodeE "Nodes") nOrigin).1
        nStrict1).1 :=
  claim6_registry_invariant nodeIntf goodNode _
    (Reach.step _ _ (Reach.step _ _ (Reach.base "Nodes")))

/-- C7: registering a node into a fresh registry and then registering any
run of nodes identical to it stores exactly one entity, returns that same
stored entity on every later call, and leaves the registry (contents and
warnings) unchanged after the first call. -/
theorem claim7_dedup_idempotent (n : NodeE) (ns : List NodeE)
    (h : ∀ m ∈ ns, NodeE.identical_to m n = true) :
    (addE nodeIntf (mkEList NodeE "Nodes") n).1._list
      = [(addE nodeIntf (mkEList NodeE "Nodes") n).2] ∧
    (addE nodeIntf (mkEList NodeE "Nodes") n).1._errors = [] ∧
    (addRun nodeIntf (addE nodeIntf (mkEList NodeE "Nodes") n).1 ns).1
      = (addE nodeIntf (mkEList NodeE "Nodes") n).1 ∧
    ∀ r ∈ (addRun nodeIntf (addE nodeIntf (mkEList NodeE "Nodes") n).1 ns).2,
      r = (addE nodeIntf (mkEList NodeE "Nodes") n).2 := by
  obtain ⟨hl, he⟩ := addE_empty_spec nodeIntf "Nodes" n
  have hident : ∀ m ∈ ns,
      nodeIntf.identTo m (addE nodeIntf (mkEList NodeE "Nodes") n).2
        = true := by
    intro m hm
    rw [addE_empty_identTo nodeIntf goodNode "Nodes" n m]
    exact h m hm
  obtain ⟨h1, h2⟩ := addRun_all_ident nodeIntf _ _ hl ns hident
  exact ⟨hl, he, h1, h2⟩

/-- C7, witness: the dedup-idempotence statement at the origin node and two
nearby nodes. -/
theorem claim7_witness :
    (∀ m ∈ nsNearOrigin, NodeE.identical_to m nOrigin = true) ∧
    ((addE nodeIntf (mkEList NodeE "Nodes") nOrigin).1._list
      = [(addE nodeIntf (mkEList NodeE "Nodes") nOrigin).2] ∧
    (addE nodeIntf (mkEList NodeE "Nodes") nOrigin).1._errors = [] ∧
    (addRun nodeIntf (addE nodeIntf (mkEList NodeE "Nodes") nOrigin).1
      nsNearOrigin).1
      = (addE nodeIntf (mkEList NodeE "Nodes") nOrigin).1 ∧
    ∀ r ∈ (addRun nodeIntf (addE nodeIntf (mkEList NodeE "Nodes") nOrigin).1
      nsNearOrigin).2,
      r = (addE nodeIntf (mkEList NodeE "Nodes") nOrigin).2) :=
  ⟨nsNear_ident, claim7_dedup_idempotent nOrigin nsNearOrigin nsNear_ident⟩

/-- C8: two nodes are identical exactly when their Euclidean distance is
strictly below the tolerance 0.1 — at distance exactly 0.1 the incoming
node is NOT merged (the registry grows to two entities), at distance 0.05
it IS merged (the registry keeps one entity). -/
theorem claim8_tolerance_boundary :
    (∀ a b : NodeE, NodeE.identical_to a b = true ↔
      Real.sqrt ((a.distSqTo b : ℚ) : ℝ) < ((tolerance : ℚ) : ℝ)) ∧
    (addE nodeIntf stOne
      (mkNodeFromCoords 30 { x := 1 / 10, y := 0, z := 0 })).1._list.length
      = 2 ∧
    (addE nodeIntf stOne
      (mkNodeFromCoords 31 { x := 1 / 20, y := 0, z := 0 })).1._list.length
      = 1 := by
  refine ⟨?_, ?_, ?_⟩
  · intro a b
    have hpos : (0 : ℝ) < ((tolerance : ℚ) : ℝ) := by
      norm_num [tolerance]
    unfold NodeE.identical_to
    rw [Real.sqrt_lt' hpos, decide_eq_true_eq]
    rw [show (((tolerance : ℚ) : ℝ)) ^ 2 = ((tolerance ^ 2 : ℚ) : ℝ) by
      push_cast
      ring]
    exact Rat.cast_lt.symm
  · norm_num [addE, get_identical_to, get_conflicting_element, add_number,
      get_available_number, availAux, is_taken_number, stOne, mkEList,
      List.find?, nodeIntf, nOrigin, mkNodeFromCoords, NodeE.identical_to,
      NodeE.distSqTo, round5, tolerance]
  · norm_num [addE, get_identical_to, get_conflicting_element, add_number,
      get_available_number, availAux, is_taken_number, stOne, mkEList,
      List.find?, nodeIntf, nOrigin, mkNodeFromCoords, NodeE.identical_to,
      NodeE.distSqTo, round5, tolerance]

/-- C9: the lowest-free-number policy — `get_available_number` returns the
least positive number free in the group; an unassigned-number registration
receives exactly that number; and a never-deduplicated run of
unassigned-number registrations in one group receives strictly increasing
numbers, each previously free, skipping only numbers already taken at the
start. -/
theorem claim9_lowest_free_number {α : Type} (I : ElemIntf α)
    (hG : GoodIntf I) (g : Int) (st : EList α) (es : List α)
    (hall : ∀ e ∈ es, I.no e = -1 ∧ I.grp e = g)
    (hnd : NoDupRun I st es) :
    (1 ≤ get_available_number I st g ∧
      is_taken_number I st (get_available_number I st g) g = false ∧
      (∀ m, 1 ≤ m → m < get_available_number I st g →
        is_taken_number I st m g = true)) ∧
    (∀ e : α, I.no e = -1 → get_identical_to I st e = none →
      I.no (addE I st e).2 = get_available_number I st (I.grp e)) ∧
    SeqSpec I st g (((addRun I st es).2).map I.no) :=
  ⟨get_available_number_spec I st g,
    fun e hno hid => addE_unassigned_no I hG st e hno hid,
    seq_aux I hG g es st hall hnd⟩

/-- C9, witness: three anonymous registrations against a registry where
number 2 is reserved receive the numbers 1, 3, 4. -/
theorem claim9_witness :
    (∀ e ∈ esAnon, nodeIntf.no e = -1 ∧ nodeIntf.grp e = -1) ∧
    SeqSpec nodeIntf stReserved (-1)
      (((addRun nodeIntf stReserved esAnon).2).map nodeIntf.no) ∧
    ((addRun nodeIntf stReserved esAnon).2).map nodeIntf.no = [1, 3, 4] :=
  ⟨esAnon_unassigned,
    (claim9_lowest_free_number nodeIntf goodNode (-1) stReserved esAnon
      esAnon_unassigned esAnon_nodup).2.2,
    esAnon_numbers⟩

/-- C10: a registry's export is its accumulated warnings first, each on its
own commented line, then one line per entity in insertion order, with an
entity's provenance-marker block emitted exactly when the entity has a
marker that differs, compared by identity, from the immediately preceding
entity's marker. -/
theorem claim10_export_shape {α : Type} (I : ElemIntf α)
    (exLine : α → String) (dec : String → RhinoTriple) (st : EList α) :
    exportEList I exLine dec st = specExportEList I exLine dec st := by
  unfold exportEList specExportEList
  rw [exportLoop_eq_spec I exLine dec st._list LayerSlot.sentinel none
    trivial]

end Giraffe
